import Mathlib

/-!
# vau-clone: the vault engine

A shallow embedding of `pkg/storage/storage.go`, `pkg/auth/auth.go` and
`pkg/vault/vault.go`, followed by the properties of the engine.

Conventions of the embedding:

* a Go `string` is a Lean `String`; a Go `[]byte` holding key material or a
  plaintext is a `Bytes` (a list of octets);
* a storage blob is only ever produced by `[]byte(s)` and consumed by
  `string(b)`; both conversions copy the same octets, so a blob is kept as
  the string it was converted from;
* a Go `error` is its message; `nil` is the absence of an error;
* a method with a pointer receiver returns the receiver after the call
  together with the Go result;
* the locks are not modelled: every call runs to completion on its own;
* everything a call obtains from outside the process (the clock, the random
  source, the outcome of writing the data file) is passed in as an `Env`;
* package `crypto`, SHA-256 and `encoding/json` are not part of the
  sources; they are the fields of a `Deps` value that is a parameter of the
  engine.
-/

namespace VauClone

/-! ## Basic types -/

/-- One octet. -/
abbrev Byte := Fin 256

/-- A Go `[]byte`. -/
abbrev Bytes := List Byte

/-- A Go `error` value, identified with its message. -/
abbrev Error := String

deriving instance DecidableEq for Except

/-- Instants and durations in nanoseconds (`time.Time`, `time.Duration`). -/
abbrev Time := Int

/-! ## encoding/base64, `StdEncoding`

The standard alphabet with `=` padding; decoding is not strict: `\r` and
`\n` are skipped and the unused low bits of a final partial group are not
checked. -/

namespace Base64

/-- The 64 characters of the standard alphabet (`encodeStd`). -/
def encodeStd : List Char :=
  "ABCDEFGHIJKLMNOPQRSTUVWXYZabcdefghijklmnopqrstuvwxyz0123456789+/".data

/-- The character for a 6-bit value. -/
def encodeChar (n : Nat) : Char := encodeStd.getD n 'A'

/-- The 6-bit value of a character of the alphabet (`decodeMap`, where
`none` stands for the entry `0xff`). -/
def decodeMap (c : Char) : Option Nat :=
  let i := encodeStd.indexOf c
  if i < 64 then some i else none

/-- Encoding proper: three octets give four characters, a last group of
one or two octets is padded with `=`. -/
def encodeChars : Bytes → List Char
  | [] => []
  | [a] =>
      [encodeChar (a.val / 4), encodeChar (a.val % 4 * 16), '=', '=']
  | [a, b] =>
      [encodeChar (a.val / 4), encodeChar (a.val % 4 * 16 + b.val / 16),
       encodeChar (b.val % 16 * 4), '=']
  | a :: b :: c :: rest =>
      encodeChar (a.val / 4) :: encodeChar (a.val % 4 * 16 + b.val / 16) ::
      encodeChar (b.val % 16 * 4 + c.val / 64) :: encodeChar (c.val % 64) ::
      encodeChars rest

/-- The function `base64.StdEncoding.EncodeToString`. -/
def EncodeToString (src : Bytes) : String := String.mk (encodeChars src)

/-- The line-break characters the decoder skips. -/
def isNewline (c : Char) : Bool := c == '\n' || c == '\r'

/-- First octet of a group, from its first two 6-bit values. -/
def octet0 (s0 s1 : Nat) : Byte := Fin.ofNat ((s0 * 4 + s1 / 16) % 256)

/-- Second octet of a group. -/
def octet1 (s1 s2 : Nat) : Byte := Fin.ofNat ((s1 % 16 * 16 + s2 / 4) % 256)

/-- Third octet of a group. -/
def octet2 (s2 s3 : Nat) : Byte := Fin.ofNat ((s2 % 4 * 64 + s3) % 256)

/-- The decoding loop (`Decode` over `decodeQuantum`): `pend` holds the
6-bit values already read for the current group of four. `none` is a
`CorruptInputError`. -/
def decodeChars : List Char → List Nat → Option Bytes
  | [], pend => if pend.isEmpty then some [] else none
  | c :: cs, pend =>
      match decodeMap c with
      | some v =>
          match pend with
          | [s0, s1, s2] =>
              (decodeChars cs []).map
                (fun out => octet0 s0 s1 :: octet1 s1 s2 :: octet2 s2 v :: out)
          | _ => decodeChars cs (pend ++ [v])
      | none =>
          if isNewline c then decodeChars cs pend
          else if c != '=' then none
          else
            match pend with
            | [s0, s1] =>
                match cs.dropWhile isNewline with
                | [] => none
                | d :: rest =>
                    if d != '=' then none
                    else if (rest.dropWhile isNewline).isEmpty then some [octet0 s0 s1]
                    else none
            | [s0, s1, s2] =>
                if (cs.dropWhile isNewline).isEmpty then some [octet0 s0 s1, octet1 s1 s2]
                else none
            | _ => none

/-- The function `base64.StdEncoding.DecodeString`; `none` when it returns an
error. -/
def DecodeString (s : String) : Option Bytes := decodeChars s.data []

end Base64

/-! ## Go maps -/

/-- A Go `map[string]T` as an association list; the first entry for a key
is the one in force. -/
abbrev GoMap (β : Type) := List (String × β)

namespace GoMap

variable {β : Type}

/-- The lookup `v, exists := m[key]`. -/
def get (m : GoMap β) (key : String) : Option β :=
  match m with
  | [] => none
  | (k, v) :: rest => if k = key then some v else get rest key

/-- The statement `delete(m, key)`. -/
def delete (m : GoMap β) (key : String) : GoMap β :=
  m.filter (fun kv => kv.1 ≠ key)

/-- The assignment `m[key] = value`. -/
def set (m : GoMap β) (key : String) (value : β) : GoMap β :=
  (key, value) :: delete m key

/-- The keys visited by `for key := range m`, in some order. -/
def keys (m : GoMap β) : List String := m.map Prod.fst

end GoMap

/-! ## pkg/storage -/

/-- A stored value: the `[]byte` of a string. -/
abbrev Blob := String

/-- Where a failed `os.WriteFile` stopped. `atOpen`: `OpenFile` failed and the
file is as it was. `atWrite`: the file was opened with `O_TRUNC` and `Write`
failed, so it is empty or holds a proper initial part of the text. `atClose`:
the whole text was written and `Close` failed. -/
inductive WriteFailure where
  | atOpen
  | atWrite
  | atClose
deriving DecidableEq, Repr

/-- The type `FileStorage`: `data` is the map in memory, `file` is what the
data file `vault.db` under `basePath` holds: the map whose JSON text it
contains (the empty map when there is no file), or `none` when its content
is not the JSON text of a map, as after a write that stopped part way. -/
structure FileStorage where
  data : GoMap Blob
  file : Option (GoMap Blob)
deriving DecidableEq, Repr

namespace FileStorage

/-- The method `persist`: writes the JSON text of the whole map to the data
file with `os.WriteFile`. `io` is the error of that call, if any, with the
place where it stopped: a failure at `OpenFile` leaves the file as it was, a
failure of `Write` leaves a truncated file that no longer holds a map, a
failure of `Close` leaves the whole text. -/
def persist (fs : FileStorage) (io : Option (Error × WriteFailure)) :
    FileStorage × Option Error :=
  match io with
  | none => ({ fs with file := some fs.data }, none)
  | some (err, .atOpen) => (fs, some err)
  | some (err, .atWrite) => ({ fs with file := none }, some err)
  | some (err, .atClose) => ({ fs with file := some fs.data }, some err)

/-- What `load` obtains from the data file when a later process opens the
directory: the map, or the error of `json.Unmarshal` on a truncated text. -/
def reload (fs : FileStorage) : Except Error (GoMap Blob) :=
  match fs.file with
  | some m => .ok m
  | none => .error "unexpected end of JSON input"

/-- The method `Get`. -/
def Get (fs : FileStorage) (key : String) : Except Error Blob :=
  match fs.data.get key with
  | none => .error "key not found"
  | some value => .ok value

/-- The method `Put`: the map is updated first, then persisted. -/
def Put (fs : FileStorage) (key : String) (value : Blob)
    (io : Option (Error × WriteFailure)) :
    FileStorage × Option Error :=
  persist { fs with data := fs.data.set key value } io

/-- The method `Delete`. -/
def Delete (fs : FileStorage) (key : String) (io : Option (Error × WriteFailure)) :
    FileStorage × Option Error :=
  match fs.data.get key with
  | none => (fs, some "key not found")
  | some _ => persist { fs with data := fs.data.delete key } io

/-- The method `List`: the keys that start with `pfx`. Both strings are
valid UTF-8, so `key[:len(pfx)] == pfx` on octets is `pfx` being an
initial segment of `key` on characters. -/
def List (fs : FileStorage) (pfx : String) : Except Error (List String) :=
  .ok (fs.data.keys.filter
    (fun key => pfx.length == 0 || (key.length ≥ pfx.length && pfx.data.isPrefixOf key.data)))

end FileStorage

/-- The constructor `NewFileStorage`. `disk` is what `os.MkdirAll` and `load`
obtain from the directory: an error, or the content of the data file (the
empty map when there is no file yet). -/
def NewFileStorage (disk : Except Error (GoMap Blob)) : Except Error FileStorage :=
  match disk with
  | .error err => .error err
  | .ok m => .ok { data := m, file := some m }

/-! ## pkg/auth -/

/-- The type `Token`. -/
structure Token where
  ID : String
  CreatedAt : Time
  ExpiresAt : Time
  IsRoot : Bool
deriving DecidableEq, Repr

/-- The type `TokenStore`. -/
structure TokenStore where
  tokens : GoMap Token
deriving DecidableEq, Repr

/-- The constructor `NewTokenStore`. -/
def NewTokenStore : TokenStore := { tokens := [] }

/-- The constant `time.Hour`, in nanoseconds. -/
def Hour : Int := 3600 * 1000000000

/-- The largest `int64`. -/
def maxInt64 : Int := 2 ^ 63 - 1

/-- The constant expression `100 * 365 * 24 * time.Hour`. -/
def hundredYears : Int := 100 * 365 * 24 * Hour

namespace TokenStore

/-- The method `CreateToken`, called at the instant `now`, with the store
after the call. -/
def CreateToken (ts : TokenStore) (tokenID : String) (isRoot : Bool) (ttl : Int)
    (now : Time) : TokenStore × Token :=
  let expiresAt := if isRoot && ttl == 0 then now + hundredYears else now + ttl
  let token : Token :=
    { ID := tokenID, CreatedAt := now, ExpiresAt := expiresAt, IsRoot := isRoot }
  ({ tokens := ts.tokens.set tokenID token }, token)

/-- The method `ValidateToken`, called at the instant `now`. -/
def ValidateToken (ts : TokenStore) (tokenID : String) (now : Time) : Option Error :=
  match ts.tokens.get tokenID with
  | none => some "invalid token"
  | some token => if now > token.ExpiresAt then some "token expired" else none

/-- The method `RevokeToken`. -/
def RevokeToken (ts : TokenStore) (tokenID : String) : TokenStore × Option Error :=
  match ts.tokens.get tokenID with
  | none => (ts, some "token not found")
  | some _ => ({ tokens := ts.tokens.delete tokenID }, none)

/-- The method `IsRootToken`. -/
def IsRootToken (ts : TokenStore) (tokenID : String) : Bool :=
  match ts.tokens.get tokenID with
  | none => false
  | some token => token.IsRoot

end TokenStore

/-- The digits of `hex.EncodeToString`. -/
def hextable : List Char := "0123456789abcdef".data

/-- The function `hex.EncodeToString`. -/
def hexEncodeToString (src : Bytes) : String :=
  String.mk (src.flatMap (fun b => [hextable.getD (b.val / 16) '0', hextable.getD (b.val % 16) '0']))

/-- The function `HashToken`, over the SHA-256 function `sum256` (applied to
the octets of the token). -/
def HashToken (sum256 : String → Bytes) (token : String) : String :=
  hexEncodeToString (sum256 token)

/-! ## pkg/vault -/

/-- A value held in an `interface{}` of a secret. -/
inductive JSONValue where
  | null
  | bool (b : Bool)
  | number (n : Int)
  | string (s : String)
  | array (xs : List JSONValue)
  | object (kvs : List (String × JSONValue))

/-- The type `Secret`. -/
structure Secret where
  Data : GoMap JSONValue
  Metadata : GoMap JSONValue
  CreatedAt : Time
  UpdatedAt : Time

/-- The type `InitResponse`. -/
structure InitResponse where
  RootToken : String
  UnsealKey : String
deriving DecidableEq, Repr

/-- The functions the engine calls that are not defined in `pkg/storage`,
`pkg/auth` or `pkg/vault`: `crypto.Encrypt(plaintext, key)` and
`crypto.Decrypt(ciphertext, key)`, `sha256.Sum256`, `json.Marshal` and
`json.Unmarshal` on a `Secret`. -/
structure Deps where
  Encrypt : Bytes → Bytes → Except Error String
  Decrypt : String → Bytes → Except Error Bytes
  Sum256 : String → Bytes
  Marshal : Secret → Except Error Bytes
  Unmarshal : Bytes → Except Error Secret

/-- What one call takes from outside the process: the reading of the
clock, the error (if any) of the `k`-th write of the data file during the
call with the place where that write stopped, and the results of
`crypto.GenerateKey` and `crypto.GenerateToken`. -/
structure Env where
  now : Time
  persist : Nat → Option (Error × WriteFailure)
  GenerateKey : Except Error Bytes
  GenerateToken : Except Error String

/-- The type `Vault`; a `nil` `encryptionKey` is `none`. -/
structure Vault where
  storage : FileStorage
  tokenStore : TokenStore
  sealed : Bool
  initialized : Bool
  encryptionKey : Option Bytes
  rootToken : String
deriving DecidableEq, Repr

/-- The error of each failing branch of the engine. -/
def errAlreadyInitialized : Error := "vault is already initialized"
/-- The error of `Unseal` before `Initialize`. -/
def errNotInitialized : Error := "vault is not initialized"
/-- The error of `Unseal` on an unsealed engine. -/
def errAlreadyUnsealed : Error := "vault is already unsealed"
/-- The error of `Unseal` on a string that does not decode. -/
def errInvalidUnsealKeyFormat : Error := "invalid unseal key format"
/-- The error of `Unseal` on a key the verifier rejects. -/
def errInvalidUnsealKey : Error := "invalid unseal key"
/-- The error of `Seal` on a sealed engine. -/
def errAlreadySealed : Error := "vault is already sealed"
/-- The error of every gated operation on a sealed engine. -/
def errSealed : Error := "vault is sealed"
/-- The error of `ValidateToken` on an unknown token. -/
def errInvalidToken : Error := "invalid token"
/-- The error of `ValidateToken` on an expired token. -/
def errTokenExpired : Error := "token expired"
/-- The error of `Get` and `Delete` on an absent key. -/
def errKeyNotFound : Error := "key not found"
/-- The error of `CreateToken` for a caller that is not root. -/
def errOnlyRoot : Error := "only root token can create new tokens"
/-- The error of `AuthenticateRootToken` without a stored digest. -/
def errNoRootToken : Error := "no root token configured"
/-- The error of `AuthenticateRootToken` on a digest mismatch. -/
def errInvalidRootToken : Error := "invalid root token"

namespace Vault

/-- The method `checkInitialized`. -/
def checkInitialized (v : Vault) : Option Error :=
  match v.storage.Get "core/unseal-key" with
  | .error err => some err
  | .ok _ => none

/-- The method `Initialize`. -/
def Initialize (D : Deps) (e : Env) (v : Vault) : Vault × Except Error InitResponse :=
  if v.initialized then (v, .error "vault is already initialized")
  else
    match e.GenerateKey with
    | .error err => (v, .error err)
    | .ok unsealKey =>
      match e.GenerateToken with
      | .error err => (v, .error err)
      | .ok rootTokenRaw =>
        match D.Encrypt unsealKey unsealKey with
        | .error err => (v, .error err)
        | .ok encryptedKey =>
          match v.storage.Put "core/unseal-key" encryptedKey (e.persist 0) with
          | (st1, some err) => ({ v with storage := st1 }, .error err)
          | (st1, none) =>
            let rootTokenHash := HashToken D.Sum256 rootTokenRaw
            match st1.Put "core/root-token" rootTokenHash (e.persist 1) with
            | (st2, some err) => ({ v with storage := st2 }, .error err)
            | (st2, none) =>
              ({ v with
                  storage := st2
                  tokenStore := (v.tokenStore.CreateToken rootTokenRaw true 0 e.now).1
                  initialized := true
                  rootToken := rootTokenRaw },
               .ok { RootToken := rootTokenRaw
                     UnsealKey := Base64.EncodeToString unsealKey })

/-- The method `Unseal`. The final `Get` of `core/root-token` in the Go
code has an empty body and no effect. -/
def Unseal (D : Deps) (v : Vault) (unsealKeyStr : String) : Vault × Option Error :=
  if !v.initialized then (v, some "vault is not initialized")
  else if !v.sealed then (v, some "vault is already unsealed")
  else
    match Base64.DecodeString unsealKeyStr with
    | none => (v, some "invalid unseal key format")
    | some unsealKey =>
      match v.storage.Get "core/unseal-key" with
      | .error err => (v, some err)
      | .ok encryptedKeyData =>
        match D.Decrypt encryptedKeyData unsealKey with
        | .error _ => (v, some "invalid unseal key")
        | .ok _ => ({ v with encryptionKey := some unsealKey, sealed := false }, none)

/-- The method `Seal`. -/
def Seal (v : Vault) : Vault × Option Error :=
  if v.sealed then (v, some "vault is already sealed")
  else ({ v with encryptionKey := none, sealed := true }, none)

/-- The method `IsSealed`. -/
def IsSealed (v : Vault) : Bool := v.sealed

/-- The method `IsInitialized`. -/
def IsInitialized (v : Vault) : Bool := v.initialized

/-- The octets of `v.encryptionKey` as a callee sees them: a `nil` slice
has no octets. -/
def keyBytes (v : Vault) : Bytes := v.encryptionKey.getD []

/-- The storage key `fmt.Sprintf("secret/%s", path)`. -/
def secretKey (path : String) : String := "secret/" ++ path

/-- The method `WriteSecret`. -/
def WriteSecret (D : Deps) (e : Env) (v : Vault) (token path : String)
    (data : GoMap JSONValue) : Vault × Option Error :=
  if v.sealed then (v, some "vault is sealed")
  else
    match v.tokenStore.ValidateToken token e.now with
    | some err => (v, some err)
    | none =>
      let secret : Secret :=
        { Data := data, Metadata := [], CreatedAt := e.now, UpdatedAt := e.now }
      match D.Marshal secret with
      | .error err => (v, some err)
      | .ok secretJSON =>
        match D.Encrypt secretJSON v.keyBytes with
        | .error err => (v, some err)
        | .ok encrypted =>
          let r := v.storage.Put (secretKey path) encrypted (e.persist 0)
          ({ v with storage := r.1 }, r.2)

/-- The method `ReadSecret`. -/
def ReadSecret (D : Deps) (e : Env) (v : Vault) (token path : String) :
    Vault × Except Error Secret :=
  if v.sealed then (v, .error "vault is sealed")
  else
    match v.tokenStore.ValidateToken token e.now with
    | some err => (v, .error err)
    | none =>
      match v.storage.Get (secretKey path) with
      | .error err => (v, .error err)
      | .ok encryptedData =>
        match D.Decrypt encryptedData v.keyBytes with
        | .error err => (v, .error err)
        | .ok decrypted =>
          match D.Unmarshal decrypted with
          | .error err => (v, .error err)
          | .ok secret => (v, .ok secret)

/-- The method `DeleteSecret`. -/
def DeleteSecret (e : Env) (v : Vault) (token path : String) : Vault × Option Error :=
  if v.sealed then (v, some "vault is sealed")
  else
    match v.tokenStore.ValidateToken token e.now with
    | some err => (v, some err)
    | none =>
      let r := v.storage.Delete (secretKey path) (e.persist 0)
      ({ v with storage := r.1 }, r.2)

/-- The method `ListSecrets`. Every key `List` returns here starts with the
seven octets of `secret/`, so `len(k) > 7` and `k[7:]` act on characters
as on octets. -/
def ListSecrets (e : Env) (v : Vault) (token pfx : String) :
    Vault × Except Error (List String) :=
  if v.sealed then (v, .error "vault is sealed")
  else
    match v.tokenStore.ValidateToken token e.now with
    | some err => (v, .error err)
    | none =>
      match v.storage.List (secretKey pfx) with
      | .error err => (v, .error err)
      | .ok keys =>
        (v, .ok ((keys.filter (fun k => k.length > 7)).map (fun k => k.drop 7)))

/-- The method `CreateToken`. -/
def CreateToken (e : Env) (v : Vault) (rootToken : String) (ttl : Int) :
    Vault × Except Error String :=
  if v.sealed then (v, .error "vault is sealed")
  else
    match v.tokenStore.ValidateToken rootToken e.now with
    | some err => (v, .error err)
    | none =>
      if !v.tokenStore.IsRootToken rootToken then
        (v, .error "only root token can create new tokens")
      else
        match e.GenerateToken with
        | .error err => (v, .error err)
        | .ok newToken =>
          ({ v with tokenStore := (v.tokenStore.CreateToken newToken false ttl e.now).1 },
           .ok newToken)

/-- The method `GetRootToken`. -/
def GetRootToken (v : Vault) : String := v.rootToken

/-- The method `AuthenticateRootToken`. -/
def AuthenticateRootToken (D : Deps) (e : Env) (v : Vault) (token : String) :
    Vault × Option Error :=
  if v.sealed then (v, some "vault is sealed")
  else
    match v.storage.Get "core/root-token" with
    | .error _ => (v, some "no root token configured")
    | .ok rootTokenHashData =>
      let providedHash := HashToken D.Sum256 token
      if providedHash ≠ rootTokenHashData then (v, some "invalid root token")
      else
        ({ v with tokenStore := (v.tokenStore.CreateToken token true 0 e.now).1 }, none)

end Vault

/-- The constructor `New`; `disk` is what `NewFileStorage` finds under
`storagePath`. -/
def New (disk : Except Error (GoMap Blob)) : Except Error Vault :=
  match NewFileStorage disk with
  | .error err => .error err
  | .ok store =>
    let v : Vault :=
      { storage := store, tokenStore := NewTokenStore, sealed := true,
        initialized := false, encryptionKey := none, rootToken := "" }
    if v.checkInitialized = none then .ok { v with initialized := true } else .ok v

/-! ## cmd/vault-server

The handlers act on the one engine `vaultInstance`; here they take it as
an argument and return it with the response. A request is given by what a
handler reads from it. -/

/-- The constant `http.StatusOK`. -/
def StatusOK : Nat := 200
/-- The constant `http.StatusBadRequest`. -/
def StatusBadRequest : Nat := 400
/-- The constant `http.StatusUnauthorized`. -/
def StatusUnauthorized : Nat := 401
/-- The constant `http.StatusForbidden`. -/
def StatusForbidden : Nat := 403
/-- The constant `http.StatusNotFound`. -/
def StatusNotFound : Nat := 404
/-- The constant `http.StatusMethodNotAllowed`. -/
def StatusMethodNotAllowed : Nat := 405
/-- The constant `http.StatusInternalServerError`. -/
def StatusInternalServerError : Nat := 500

/-- What the handlers read from `*http.Request`: the method, the header
`X-Vault-Token` (empty when absent), `r.URL.Path` and the query parameter
named prefix. -/
structure Request where
  Method : String
  Token : String
  Path : String
  QueryPfx : String
deriving DecidableEq, Repr

/-- The JSON value a handler writes. -/
inductive Body where
  | errorResponse (Error : String)
  | statusResponse (Initialized Sealed : Bool)
  | initResponse (resp : InitResponse)
  | statusText (status : String)
  | secretResponse (Data : GoMap JSONValue)
  | keysResponse (keys : List String)
  | tokenCreateResponse (Token : String)

/-- The status code and the body a handler writes. -/
structure Response where
  status : Nat
  body : Body

/-- The function `writeJSON`. -/
def writeJSON (status : Nat) (data : Body) : Response := { status := status, body := data }

/-- The function `writeError`. -/
def writeError (status : Nat) (message : String) : Response :=
  writeJSON status (.errorResponse message)

/-- The function `getTokenFromHeader`. -/
def getTokenFromHeader (r : Request) : String := r.Token

/-- The path of a secret request: `r.URL.Path[len("/v1/secret/"):]`. -/
def secretPath (r : Request) : String := r.Path.drop 11

/-- The function `initHandler`. -/
def initHandler (D : Deps) (e : Env) (v : Vault) (r : Request) : Vault × Response :=
  if r.Method ≠ "POST" ∧ r.Method ≠ "PUT" then
    (v, writeError StatusMethodNotAllowed "method not allowed")
  else if v.IsInitialized then
    (v, writeError StatusBadRequest "vault is already initialized")
  else
    match v.Initialize D e with
    | (w, .error err) => (w, writeError StatusInternalServerError err)
    | (w, .ok initResp) => (w, writeJSON StatusOK (.initResponse initResp))

/-- The function `unsealHandler`; `body` is what decoding the request body
gives for the field `key`. -/
def unsealHandler (D : Deps) (v : Vault) (r : Request) (body : Except Error String) :
    Vault × Response :=
  if r.Method ≠ "POST" ∧ r.Method ≠ "PUT" then
    (v, writeError StatusMethodNotAllowed "method not allowed")
  else
    match body with
    | .error _ => (v, writeError StatusBadRequest "invalid request body")
    | .ok key =>
      match v.Unseal D key with
      | (w, some err) => (w, writeError StatusBadRequest err)
      | (w, none) => (w, writeJSON StatusOK (.statusResponse w.IsInitialized w.IsSealed))

/-- The function `sealHandler`. -/
def sealHandler (v : Vault) (r : Request) : Vault × Response :=
  if r.Method ≠ "POST" ∧ r.Method ≠ "PUT" then
    (v, writeError StatusMethodNotAllowed "method not allowed")
  else
    match v.Seal with
    | (w, some err) => (w, writeError StatusBadRequest err)
    | (w, none) => (w, writeJSON StatusOK (.statusResponse w.IsInitialized w.IsSealed))

/-- The function `writeSecretHandler`; `body` is what decoding the request
body gives for the field `data`. -/
def writeSecretHandler (D : Deps) (e : Env) (v : Vault) (r : Request)
    (body : Except Error (GoMap JSONValue)) : Vault × Response :=
  if r.Method ≠ "POST" ∧ r.Method ≠ "PUT" then
    (v, writeError StatusMethodNotAllowed "method not allowed")
  else if getTokenFromHeader r = "" then
    (v, writeError StatusUnauthorized "missing token")
  else if secretPath r = "" then
    (v, writeError StatusBadRequest "missing secret path")
  else
    match body with
    | .error _ => (v, writeError StatusBadRequest "invalid request body")
    | .ok data =>
      match v.WriteSecret D e (getTokenFromHeader r) (secretPath r) data with
      | (w, some err) => (w, writeError StatusInternalServerError err)
      | (w, none) => (w, writeJSON StatusOK (.statusText "success"))

/-- The function `readSecretHandler`. -/
def readSecretHandler (D : Deps) (e : Env) (v : Vault) (r : Request) : Vault × Response :=
  if r.Method ≠ "GET" then
    (v, writeError StatusMethodNotAllowed "method not allowed")
  else if getTokenFromHeader r = "" then
    (v, writeError StatusUnauthorized "missing token")
  else if secretPath r = "" then
    (v, writeError StatusBadRequest "missing secret path")
  else
    match v.ReadSecret D e (getTokenFromHeader r) (secretPath r) with
    | (w, .error err) => (w, writeError StatusNotFound err)
    | (w, .ok secret) => (w, writeJSON StatusOK (.secretResponse secret.Data))

/-- The function `deleteSecretHandler`. -/
def deleteSecretHandler (e : Env) (v : Vault) (r : Request) : Vault × Response :=
  if r.Method ≠ "DELETE" then
    (v, writeError StatusMethodNotAllowed "method not allowed")
  else if getTokenFromHeader r = "" then
    (v, writeError StatusUnauthorized "missing token")
  else if secretPath r = "" then
    (v, writeError StatusBadRequest "missing secret path")
  else
    match v.DeleteSecret e (getTokenFromHeader r) (secretPath r) with
    | (w, some err) => (w, writeError StatusNotFound err)
    | (w, none) => (w, writeJSON StatusOK (.statusText "success"))

/-- The function `listSecretsHandler`. -/
def listSecretsHandler (e : Env) (v : Vault) (r : Request) : Vault × Response :=
  if r.Method ≠ "GET" then
    (v, writeError StatusMethodNotAllowed "method not allowed")
  else if getTokenFromHeader r = "" then
    (v, writeError StatusUnauthorized "missing token")
  else
    match v.ListSecrets e (getTokenFromHeader r) r.QueryPfx with
    | (w, .error err) => (w, writeError StatusInternalServerError err)
    | (w, .ok secrets) => (w, writeJSON StatusOK (.keysResponse secrets))

/-- The function `createTokenHandler`; `body` is what decoding the request
body gives for the field `ttl`, and `ParseDuration` is `time.ParseDuration`. -/
def createTokenHandler (ParseDuration : String → Except Error Int) (e : Env) (v : Vault)
    (r : Request) (body : Except Error String) : Vault × Response :=
  if r.Method ≠ "POST" then
    (v, writeError StatusMethodNotAllowed "method not allowed")
  else if getTokenFromHeader r = "" then
    (v, writeError StatusUnauthorized "missing token")
  else
    match body with
    | .error _ => (v, writeError StatusBadRequest "invalid request body")
    | .ok reqTTL =>
      match (if reqTTL ≠ "" then ParseDuration reqTTL else .ok (24 * Hour)) with
      | .error _ => (v, writeError StatusBadRequest "invalid ttl format")
      | .ok ttl =>
        match v.CreateToken e (getTokenFromHeader r) ttl with
        | (w, .error err) => (w, writeError StatusForbidden err)
        | (w, .ok newToken) => (w, writeJSON StatusOK (.tokenCreateResponse newToken))

/-- The function `authenticateHandler`. -/
def authenticateHandler (D : Deps) (e : Env) (v : Vault) (r : Request) : Vault × Response :=
  if r.Method ≠ "POST" then
    (v, writeError StatusMethodNotAllowed "method not allowed")
  else if getTokenFromHeader r = "" then
    (v, writeError StatusUnauthorized "missing token")
  else
    match v.AuthenticateRootToken D e (getTokenFromHeader r) with
    | (w, some err) => (w, writeError StatusUnauthorized err)
    | (w, none) => (w, writeJSON StatusOK (.statusText "authenticated"))

/-! ## Runs of the engine -/

/-- One call of an engine method, with any arguments and any environment,
whether it succeeds or fails. -/
inductive Step (D : Deps) : Vault → Vault → Prop where
  | Initialize (e : Env) (v : Vault) : Step D v (v.Initialize D e).1
  | Unseal (v : Vault) (unsealKeyStr : String) : Step D v (v.Unseal D unsealKeyStr).1
  | Seal (v : Vault) : Step D v v.Seal.1
  | WriteSecret (e : Env) (v : Vault) (token path : String) (data : GoMap JSONValue) :
      Step D v (v.WriteSecret D e token path data).1
  | ReadSecret (e : Env) (v : Vault) (token path : String) :
      Step D v (v.ReadSecret D e token path).1
  | DeleteSecret (e : Env) (v : Vault) (token path : String) :
      Step D v (v.DeleteSecret e token path).1
  | ListSecrets (e : Env) (v : Vault) (token pfx : String) :
      Step D v (v.ListSecrets e token pfx).1
  | CreateToken (e : Env) (v : Vault) (rootToken : String) (ttl : Int) :
      Step D v (v.CreateToken e rootToken ttl).1
  | AuthenticateRootToken (e : Env) (v : Vault) (token : String) :
      Step D v (v.AuthenticateRootToken D e token).1

/-- The engine states a process can be in: what `New` returns, and what any
sequence of calls makes of it. -/
inductive Reachable (D : Deps) : Vault → Prop where
  | new (disk : Except Error (GoMap Blob)) (v : Vault) : New disk = .ok v → Reachable D v
  | step (v w : Vault) : Reachable D v → Step D v w → Reachable D w

/-- A data map is JSON-safe when it survives the codec: whenever a secret
with this `Data` marshals, the octets unmarshal to a secret with the same
`Data`. -/
def JSONSafe (D : Deps) (data : GoMap JSONValue) : Prop :=
  ∀ (s : Secret) (bs : Bytes), s.Data = data → D.Marshal s = .ok bs →
    ∃ s', D.Unmarshal bs = .ok s' ∧ s'.Data = data

/-! ## A sample instance

A small cipher, digest and codec with which the engine can be run on
concrete values. -/

/-- A sample cipher with 32-octet keys: the ciphertext is the base64 text
of the key followed by the plaintext. -/
def sampleEncrypt (plaintext key : Bytes) : Except Error String :=
  if key.length = 32 then .ok (Base64.EncodeToString (key ++ plaintext))
  else .error "invalid key size"

/-- Decryption for `sampleEncrypt`: it fails unless the ciphertext was made
under `key`. -/
def sampleDecrypt (ciphertext : String) (key : Bytes) : Except Error Bytes :=
  if key.length = 32 then
    match Base64.DecodeString ciphertext with
    | none => .error "illegal base64 data"
    | some bs =>
      if bs.take 32 = key then .ok (bs.drop 32) else .error "message authentication failed"
  else .error "invalid key size"

/-- A sample digest: the low octet of every character. -/
def sampleSum256 (s : String) : Bytes := s.data.map (fun c => Fin.ofNat c.toNat)

/-- A sample codec for secrets with one numeric field: the value, then the
characters of the field name. -/
def sampleMarshal (s : Secret) : Except Error Bytes :=
  match s.Data with
  | [(k, .number n)] =>
      if 0 ≤ n ∧ n < 256 then .ok (Fin.ofNat n.toNat :: k.data.map (fun c => Fin.ofNat c.toNat))
      else .error "json: unsupported value"
  | _ => .error "json: unsupported value"

/-- Decoding for `sampleMarshal`. -/
def sampleUnmarshal (bs : Bytes) : Except Error Secret :=
  match bs with
  | [] => .error "unexpected end of JSON input"
  | n :: ks =>
      .ok { Data := [(String.mk (ks.map (fun b => Char.ofNat b.val)), .number n.val)]
            Metadata := [], CreatedAt := 0, UpdatedAt := 0 }

/-- The sample instance of the external functions. -/
def sampleDeps : Deps :=
  { Encrypt := sampleEncrypt, Decrypt := sampleDecrypt, Sum256 := sampleSum256,
    Marshal := sampleMarshal, Unmarshal := sampleUnmarshal }

/-- A 32-octet key. -/
def sampleKey : Bytes :=
  [0, 1, 2, 3, 4, 5, 6, 7, 8, 9, 10, 11, 12, 13, 14, 15,
   16, 17, 18, 19, 20, 21, 22, 23, 24, 25, 26, 27, 28, 29, 30, 31]

/-- An environment in which nothing fails: the clock reads 1000, the random
source yields `sampleKey` and the token `root-1`. -/
def sampleEnv : Env :=
  { now := 1000, persist := fun _ => none, GenerateKey := .ok sampleKey,
    GenerateToken := .ok "root-1" }

/-- The engine `New` builds over an empty directory. -/
def sampleVault0 : Vault :=
  { storage := { data := [], file := some [] }, tokenStore := NewTokenStore, sealed := true,
    initialized := false, encryptionKey := none, rootToken := "" }

/-- The sample engine after `Initialize`. -/
def sampleVault1 : Vault := (sampleVault0.Initialize sampleDeps sampleEnv).1

/-- The base64 text of `sampleKey`, as `Initialize` returns it. -/
def sampleUnsealKey : String := Base64.EncodeToString sampleKey

/-- The sample engine after `Initialize` and `Unseal`. -/
def sampleVault2 : Vault := (sampleVault1.Unseal sampleDeps sampleUnsealKey).1

/-- The unsealed sample engine after a write at `a/b`. -/
def sampleVault3 : Vault :=
  (sampleVault2.WriteSecret sampleDeps sampleEnv "root-1" "a/b" [("x", .number 1)]).1

/-- The sample engine after a further write at the empty path. -/
def sampleVault4 : Vault :=
  (sampleVault3.WriteSecret sampleDeps sampleEnv "root-1" "" [("x", .number 1)]).1

/-- The result of an `int64` computation: `x` reduced to the range of
`int64`. -/
def wrapInt64 (x : Int) : Int := (x + 2 ^ 63) % 2 ^ 64 - 2 ^ 63

/-- A token store that holds the non-root token `guest`, expiring at 2000,
next to the root token `root-1`. -/
def sampleTokenStore : TokenStore :=
  (sampleVault2.tokenStore.CreateToken "guest" false 1000 1000).1

/-- The unsealed sample engine with the token `guest` issued. -/
def sampleVault5 : Vault := { sampleVault3 with tokenStore := sampleTokenStore }

/-- The sample engine after a restart: `New` over the data file of
`sampleVault3`, then `Unseal`. Its token store is empty. -/
def sampleVault6 : Vault :=
  ({ storage := { data := sampleVault3.storage.data, file := some sampleVault3.storage.data },
     tokenStore := NewTokenStore, sealed := true, initialized := true,
     encryptionKey := none, rootToken := "" } : Vault).Unseal sampleDeps sampleUnsealKey |>.1

/-- An environment in which the second write of the data file fails
before the file is opened. -/
def sampleEnvSecondOpenFails : Env :=
  { sampleEnv with
      persist := fun k =>
        if k = 1 then some ("open vault.db: too many open files", .atOpen) else none }

/-- An environment in which the second write of the data file fails after
the file was truncated. -/
def sampleEnvSecondWriteFails : Env :=
  { sampleEnv with
      persist := fun k =>
        if k = 1 then some ("write vault.db: no space left on device", .atWrite) else none }

/-- An environment in which every write of the data file fails after the
file was truncated. -/
def sampleEnvWriteFails : Env :=
  { sampleEnv with
      persist := fun _ => some ("write vault.db: no space left on device", .atWrite) }

/-- The verifier the sample `Initialize` stores: the sample ciphertext of
`sampleKey` under itself. -/
def sampleVerifier : Blob :=
  "AAECAwQFBgcICQoLDA0ODxAREhMUFRYXGBkaGxwdHh8AAQIDBAUGBwgJCgsMDQ4PEBESExQVFhcYGRobHB0eHw=="

/-- The engine `New` builds over the data file left by the sample
`Initialize` whose second write could not open the file: the file holds the
verifier alone. -/
def sampleVault7 : Vault :=
  { storage :=
      { data := [("core/unseal-key", sampleVerifier)]
        file := some [("core/unseal-key", sampleVerifier)] }
    tokenStore := NewTokenStore, sealed := true, initialized := true,
    encryptionKey := none, rootToken := "" }

/-- A sample of `time.ParseDuration` that reads every text as one minute. -/
def sampleParseDuration (_ : String) : Except Error Int := .ok (60 * 1000000000)

/-- A sample request to write the secret `a/b` with the root token. -/
def sampleWriteRequest : Request :=
  { Method := "POST", Token := "root-1", Path := "/v1/secret/a/b", QueryPfx := "" }

/-- A sample request to read the secret `a/b` with the root token. -/
def sampleReadRequest : Request :=
  { Method := "GET", Token := "root-1", Path := "/v1/secret/a/b", QueryPfx := "" }

/-- A sample request to create a token with the root token. -/
def sampleCreateTokenRequest : Request :=
  { Method := "POST", Token := "root-1", Path := "/v1/auth/token/create", QueryPfx := "" }

/-! ## Facts about base64 -/

namespace Base64

theorem decodeMap_encodeChar (n : Nat) (h : n < 64) : decodeMap (encodeChar n) = some n := by
  have key : ∀ m : Fin 64, decodeMap (encodeChar m.val) = some m.val := by decide
  exact key ⟨n, h⟩

theorem decodeMap_pad : decodeMap '=' = none := by decide

theorem octet0_eq (a b : Byte) : octet0 (a.val / 4) (a.val % 4 * 16 + b.val / 16) = a := by
  apply Fin.ext
  have ha := a.isLt
  have hb := b.isLt
  simp only [octet0, Fin.ofNat, Fin.val_mk]
  omega

theorem octet0_eq_last (a : Byte) : octet0 (a.val / 4) (a.val % 4 * 16) = a := by
  apply Fin.ext
  have ha := a.isLt
  simp only [octet0, Fin.ofNat, Fin.val_mk]
  omega

theorem octet1_eq (a b c : Byte) :
    octet1 (a.val % 4 * 16 + b.val / 16) (b.val % 16 * 4 + c.val / 64) = b := by
  apply Fin.ext
  have ha := a.isLt
  have hb := b.isLt
  have hc := c.isLt
  simp only [octet1, Fin.ofNat, Fin.val_mk]
  omega

theorem octet1_eq_last (a b : Byte) :
    octet1 (a.val % 4 * 16 + b.val / 16) (b.val % 16 * 4) = b := by
  apply Fin.ext
  have ha := a.isLt
  have hb := b.isLt
  simp only [octet1, Fin.ofNat, Fin.val_mk]
  omega

theorem octet2_eq (b c : Byte) : octet2 (b.val % 16 * 4 + c.val / 64) (c.val % 64) = c := by
  apply Fin.ext
  have hb := b.isLt
  have hc := c.isLt
  simp only [octet2, Fin.ofNat, Fin.val_mk]
  omega

/-- Decoding the encoding of any octet string gives the string back. -/
theorem decodeChars_encodeChars (src : Bytes) : decodeChars (encodeChars src) [] = some src := by
  induction src using encodeChars.induct with
  | case1 => simp [encodeChars, decodeChars]
  | case2 a =>
      have ha := a.isLt
      have h0 : a.val / 4 < 64 := by omega
      have h1 : a.val % 4 * 16 < 64 := by omega
      simp [encodeChars, decodeChars, decodeMap_encodeChar _ h0, decodeMap_encodeChar _ h1,
        decodeMap_pad, isNewline, octet0_eq_last]
  | case3 a b =>
      have ha := a.isLt
      have hb := b.isLt
      have h0 : a.val / 4 < 64 := by omega
      have h1 : a.val % 4 * 16 + b.val / 16 < 64 := by omega
      have h2 : b.val % 16 * 4 < 64 := by omega
      simp [encodeChars, decodeChars, decodeMap_encodeChar _ h0, decodeMap_encodeChar _ h1,
        decodeMap_encodeChar _ h2, decodeMap_pad, isNewline, octet0_eq, octet1_eq_last]
  | case4 a b c rest ih =>
      have ha := a.isLt
      have hb := b.isLt
      have hc := c.isLt
      have h0 : a.val / 4 < 64 := by omega
      have h1 : a.val % 4 * 16 + b.val / 16 < 64 := by omega
      have h2 : b.val % 16 * 4 + c.val / 64 < 64 := by omega
      have h3 : c.val % 64 < 64 := by omega
      simp [encodeChars, decodeChars, decodeMap_encodeChar _ h0, decodeMap_encodeChar _ h1,
        decodeMap_encodeChar _ h2, decodeMap_encodeChar _ h3, ih, octet0_eq, octet1_eq,
        octet2_eq]

/-- The decoder inverts the encoder: `DecodeString (EncodeToString src)`
succeeds with `src`. -/
theorem DecodeString_EncodeToString (src : Bytes) :
    DecodeString (EncodeToString src) = some src := by
  simp [DecodeString, EncodeToString, decodeChars_encodeChars]

end Base64

/-! ## Facts about maps and the stores -/

namespace GoMap

variable {β : Type}

theorem get_delete_self (m : GoMap β) (key : String) : (m.delete key).get key = none := by
  induction m with
  | nil => rfl
  | cons kv rest ih =>
      obtain ⟨k, v⟩ := kv
      by_cases h : k = key
      · simpa [delete, List.filter_cons, h] using ih
      · simpa [delete, List.filter_cons, h, get] using ih

theorem get_delete_of_ne (m : GoMap β) (key other : String) (h : other ≠ key) :
    (m.delete key).get other = m.get other := by
  have h2 : ¬ key = other := fun e => h e.symm
  induction m with
  | nil => rfl
  | cons kv rest ih =>
      obtain ⟨k, v⟩ := kv
      by_cases hk : k = key
      · subst hk
        simpa [delete, List.filter_cons, get, h2] using ih
      · by_cases ho : k = other
        · subst ho
          simp [delete, List.filter_cons, hk, get]
        · simpa [delete, List.filter_cons, hk, get, ho] using ih

theorem get_set_self (m : GoMap β) (key : String) (value : β) :
    (m.set key value).get key = some value := by
  simp [set, get]

theorem get_set_of_ne (m : GoMap β) (key other : String) (value : β) (h : other ≠ key) :
    (m.set key value).get other = m.get other := by
  have h2 : key ≠ other := fun e => h e.symm
  simp [set, get, h2, get_delete_of_ne m key other h]

end GoMap

/-! ## Seal gating and token validation -/

/-- C1: on a sealed engine, `WriteSecret`, `ReadSecret`, `DeleteSecret`,
`ListSecrets`, `CreateToken` and `AuthenticateRootToken` fail with
`vault is sealed` for all arguments, whatever the token store says about the
token, and the engine (storage, token store, flags, key) is as before. -/
theorem sealed_gates_every_operation (D : Deps) (e : Env) (v : Vault)
    (hs : v.sealed = true) (token path pfx : String) (data : GoMap JSONValue) (ttl : Int) :
    v.WriteSecret D e token path data = (v, some errSealed) ∧
    v.ReadSecret D e token path = (v, .error errSealed) ∧
    v.DeleteSecret e token path = (v, some errSealed) ∧
    v.ListSecrets e token pfx = (v, .error errSealed) ∧
    v.CreateToken e token ttl = (v, .error errSealed) ∧
    v.AuthenticateRootToken D e token = (v, some errSealed) := by
  simp [Vault.WriteSecret, Vault.ReadSecret, Vault.DeleteSecret, Vault.ListSecrets,
    Vault.CreateToken, Vault.AuthenticateRootToken, hs, errSealed]

/-- C1 at the sample engine right after `Initialize`, which is sealed and
holds the root token: a write with that valid token is refused. -/
theorem sealed_gates_every_operation_witness :
    sampleVault1.sealed = true ∧
    sampleVault1.tokenStore.ValidateToken "root-1" sampleEnv.now = none ∧
    sampleVault1.WriteSecret sampleDeps sampleEnv "root-1" "a/b" [("x", .number 1)] =
      (sampleVault1, some errSealed) :=
  ⟨by decide, by decide,
   (sealed_gates_every_operation sampleDeps sampleEnv sampleVault1 (by decide)
      "root-1" "a/b" "" [("x", .number 1)] 0).1⟩

/-- C2: on an unsealed engine, a token the store does not hold gives
`invalid token` and a token past its expiry gives `token expired`, from each
of `WriteSecret`, `ReadSecret`, `DeleteSecret` and `ListSecrets`, for every
path, prefix and data; the error is the same whatever the storage holds and
the storage is returned as it was. -/
theorem invalid_token_rejected_before_storage (D : Deps) (e : Env) (v : Vault)
    (hu : v.sealed = false) (token : String)
    (hbad : v.tokenStore.tokens.get token = none ∨
      ∃ t, v.tokenStore.tokens.get token = some t ∧ e.now > t.ExpiresAt) :
    ∃ err : Error,
      (v.tokenStore.tokens.get token = none → err = errInvalidToken) ∧
      ((∃ t, v.tokenStore.tokens.get token = some t) → err = errTokenExpired) ∧
      ∀ (st : FileStorage) (path pfx : String) (data : GoMap JSONValue),
        ({ v with storage := st }).WriteSecret D e token path data =
          ({ v with storage := st }, some err) ∧
        ({ v with storage := st }).ReadSecret D e token path =
          ({ v with storage := st }, .error err) ∧
        ({ v with storage := st }).DeleteSecret e token path =
          ({ v with storage := st }, some err) ∧
        ({ v with storage := st }).ListSecrets e token pfx =
          ({ v with storage := st }, .error err) := by
  rcases hbad with hnone | ⟨t, ht, hexp⟩
  · refine ⟨errInvalidToken, fun _ => rfl, ?_, ?_⟩
    · rintro ⟨t, ht⟩
      rw [hnone] at ht
      cases ht
    · intro st path pfx data
      simp [Vault.WriteSecret, Vault.ReadSecret, Vault.DeleteSecret, Vault.ListSecrets, hu,
        TokenStore.ValidateToken, hnone, errInvalidToken]
  · refine ⟨errTokenExpired, ?_, fun _ => rfl, ?_⟩
    · intro hnone
      rw [hnone] at ht
      cases ht
    · intro st path pfx data
      simp [Vault.WriteSecret, Vault.ReadSecret, Vault.DeleteSecret, Vault.ListSecrets, hu,
        TokenStore.ValidateToken, ht, hexp, errTokenExpired]

/-- C2 at the unsealed sample engine with a token nobody issued. -/
theorem invalid_token_rejected_before_storage_witness :
    sampleVault2.sealed = false ∧
    sampleVault2.tokenStore.tokens.get "stranger" = none ∧
    ∃ err : Error,
      (sampleVault2.tokenStore.tokens.get "stranger" = none → err = errInvalidToken) ∧
      ((∃ t, sampleVault2.tokenStore.tokens.get "stranger" = some t) → err = errTokenExpired) ∧
      ∀ (st : FileStorage) (path pfx : String) (data : GoMap JSONValue),
        ({ sampleVault2 with storage := st }).WriteSecret sampleDeps sampleEnv "stranger" path data =
          ({ sampleVault2 with storage := st }, some err) ∧
        ({ sampleVault2 with storage := st }).ReadSecret sampleDeps sampleEnv "stranger" path =
          ({ sampleVault2 with storage := st }, .error err) ∧
        ({ sampleVault2 with storage := st }).DeleteSecret sampleEnv "stranger" path =
          ({ sampleVault2 with storage := st }, some err) ∧
        ({ sampleVault2 with storage := st }).ListSecrets sampleEnv "stranger" pfx =
          ({ sampleVault2 with storage := st }, .error err) :=
  ⟨by decide, by decide,
   invalid_token_rejected_before_storage sampleDeps sampleEnv sampleVault2 (by decide)
     "stranger" (Or.inl (by decide))⟩

/-! ## The lifecycle invariant -/

theorem Initialize_flags (D : Deps) (e : Env) (v : Vault) :
    (v.Initialize D e).1.sealed = v.sealed ∧
    (v.Initialize D e).1.encryptionKey = v.encryptionKey ∧
    (v.initialized = true → (v.Initialize D e).1.initialized = true) := by
  unfold Vault.Initialize
  repeat' first | split | dsimp only
  all_goals simp_all

theorem Unseal_flags (D : Deps) (v : Vault) (unsealKeyStr : String) :
    ((v.Unseal D unsealKeyStr).1 = v) ∨
    (v.initialized = true ∧ (v.Unseal D unsealKeyStr).1.initialized = true ∧
      (v.Unseal D unsealKeyStr).1.sealed = false ∧
      ∃ k, (v.Unseal D unsealKeyStr).1.encryptionKey = some k) := by
  unfold Vault.Unseal
  repeat' first | split | dsimp only
  all_goals simp_all

theorem Seal_flags (v : Vault) :
    v.Seal.1.sealed = true ∧ v.Seal.1.encryptionKey = none ∧
    v.Seal.1.initialized = v.initialized ∨ v.Seal.1 = v := by
  unfold Vault.Seal
  split <;> simp_all

theorem WriteSecret_flags (D : Deps) (e : Env) (v : Vault) (token path : String)
    (data : GoMap JSONValue) :
    (v.WriteSecret D e token path data).1.sealed = v.sealed ∧
    (v.WriteSecret D e token path data).1.encryptionKey = v.encryptionKey ∧
    (v.WriteSecret D e token path data).1.initialized = v.initialized ∧
    (v.WriteSecret D e token path data).1.tokenStore = v.tokenStore := by
  unfold Vault.WriteSecret
  repeat' first | split | dsimp only
  all_goals simp_all

theorem ReadSecret_state (D : Deps) (e : Env) (v : Vault) (token path : String) :
    (v.ReadSecret D e token path).1 = v := by
  unfold Vault.ReadSecret
  repeat' first | split | dsimp only

theorem DeleteSecret_flags (e : Env) (v : Vault) (token path : String) :
    (v.DeleteSecret e token path).1.sealed = v.sealed ∧
    (v.DeleteSecret e token path).1.encryptionKey = v.encryptionKey ∧
    (v.DeleteSecret e token path).1.initialized = v.initialized ∧
    (v.DeleteSecret e token path).1.tokenStore = v.tokenStore := by
  unfold Vault.DeleteSecret
  repeat' first | split | dsimp only
  all_goals simp_all

theorem ListSecrets_state (e : Env) (v : Vault) (token pfx : String) :
    (v.ListSecrets e token pfx).1 = v := by
  unfold Vault.ListSecrets
  repeat' first | split | dsimp only

theorem CreateToken_flags (e : Env) (v : Vault) (rootToken : String) (ttl : Int) :
    (v.CreateToken e rootToken ttl).1.sealed = v.sealed ∧
    (v.CreateToken e rootToken ttl).1.encryptionKey = v.encryptionKey ∧
    (v.CreateToken e rootToken ttl).1.initialized = v.initialized ∧
    (v.CreateToken e rootToken ttl).1.storage = v.storage := by
  unfold Vault.CreateToken
  repeat' first | split | dsimp only
  all_goals simp_all

theorem AuthenticateRootToken_flags (D : Deps) (e : Env) (v : Vault) (token : String) :
    (v.AuthenticateRootToken D e token).1.sealed = v.sealed ∧
    (v.AuthenticateRootToken D e token).1.encryptionKey = v.encryptionKey ∧
    (v.AuthenticateRootToken D e token).1.initialized = v.initialized ∧
    (v.AuthenticateRootToken D e token).1.storage = v.storage := by
  unfold Vault.AuthenticateRootToken
  repeat' first | split | dsimp only
  all_goals simp_all

theorem New_flags (disk : Except Error (GoMap Blob)) (v : Vault) (h : New disk = .ok v) :
    v.sealed = true ∧ v.encryptionKey = none ∧ v.tokenStore = NewTokenStore := by
  unfold New at h
  split at h
  · cases h
  · dsimp only at h
    split at h <;> (cases h; simp)

/-- One call keeps the relation between the key, `sealed` and `initialized`. -/
theorem Step_lifecycle (D : Deps) (v w : Vault) (hstep : Step D v w)
    (hkey : v.encryptionKey.isSome = true ↔ v.sealed = false)
    (hinit : v.sealed = false → v.initialized = true) :
    (w.encryptionKey.isSome = true ↔ w.sealed = false) ∧
    (w.sealed = false → w.initialized = true) := by
  cases hstep with
  | Initialize e =>
      obtain ⟨h1, h2, h3⟩ := Initialize_flags D e v
      rw [h1, h2]
      exact ⟨hkey, fun hs => h3 (hinit hs)⟩
  | Unseal _ unsealKeyStr =>
      rcases Unseal_flags D v unsealKeyStr with h | ⟨_, h2, h3, k, h4⟩
      · rw [h]; exact ⟨hkey, hinit⟩
      · rw [h3, h4]; simp [h2]
  | Seal =>
      rcases Seal_flags v with ⟨h1, h2, _⟩ | h
      · rw [h1, h2]; simp
      · rw [h]; exact ⟨hkey, hinit⟩
  | WriteSecret e _ token path data =>
      obtain ⟨h1, h2, h3, _⟩ := WriteSecret_flags D e v token path data
      rw [h1, h2, h3]; exact ⟨hkey, hinit⟩
  | ReadSecret e _ token path =>
      rw [ReadSecret_state]; exact ⟨hkey, hinit⟩
  | DeleteSecret e _ token path =>
      obtain ⟨h1, h2, h3, _⟩ := DeleteSecret_flags e v token path
      rw [h1, h2, h3]; exact ⟨hkey, hinit⟩
  | ListSecrets e _ token pfx =>
      rw [ListSecrets_state]; exact ⟨hkey, hinit⟩
  | CreateToken e _ rootToken ttl =>
      obtain ⟨h1, h2, h3, _⟩ := CreateToken_flags e v rootToken ttl
      rw [h1, h2, h3]; exact ⟨hkey, hinit⟩
  | AuthenticateRootToken e _ token =>
      obtain ⟨h1, h2, h3, _⟩ := AuthenticateRootToken_flags D e v token
      rw [h1, h2, h3]; exact ⟨hkey, hinit⟩

theorem Reachable_lifecycle (D : Deps) (v : Vault) (h : Reachable D v) :
    (v.encryptionKey.isSome = true ↔ v.sealed = false) ∧
    (v.sealed = false → v.initialized = true) := by
  induction h with
  | new disk v hnew =>
      obtain ⟨h1, h2, _⟩ := New_flags disk v hnew
      simp [h1, h2]
  | step v w _ hstep ih => exact Step_lifecycle D v w hstep ih.1 ih.2

/-- C3: in every state reachable from `New` by any sequence of engine
calls, the key is present exactly when `sealed = false`, and
`sealed = false` implies `initialized = true`; so the engine is
Uninitialized (sealed, no key), Initialized and Sealed (no key) or
Unsealed (key present); and while `initialized = false` every secret and
token operation fails with `vault is sealed`. -/
theorem reachable_states_lifecycle (D : Deps) (v : Vault) (h : Reachable D v) :
    (v.encryptionKey.isSome = true ↔ v.sealed = false) ∧
    (v.sealed = false → v.initialized = true) ∧
    ((v.initialized = false ∧ v.sealed = true ∧ v.encryptionKey = none) ∨
     (v.initialized = true ∧ v.sealed = true ∧ v.encryptionKey = none) ∨
     (v.initialized = true ∧ v.sealed = false ∧ ∃ k, v.encryptionKey = some k)) ∧
    (v.initialized = false →
      ∀ (e : Env) (token path pfx : String) (data : GoMap JSONValue) (ttl : Int),
        (v.WriteSecret D e token path data).2 = some errSealed ∧
        (v.ReadSecret D e token path).2 = .error errSealed ∧
        (v.DeleteSecret e token path).2 = some errSealed ∧
        (v.ListSecrets e token pfx).2 = .error errSealed ∧
        (v.CreateToken e token ttl).2 = .error errSealed ∧
        (v.AuthenticateRootToken D e token).2 = some errSealed) := by
  obtain ⟨hkey, hinit⟩ := Reachable_lifecycle D v h
  have hsealed : v.initialized = false → v.sealed = true := by
    intro hi
    cases hs : v.sealed with
    | true => rfl
    | false => rw [hinit hs] at hi; cases hi
  refine ⟨hkey, hinit, ?_, ?_⟩
  · cases hs : v.sealed with
    | false =>
        right; right
        have hk := hkey.mpr hs
        exact ⟨hinit hs, rfl, Option.isSome_iff_exists.mp hk⟩
    | true =>
        have hk : v.encryptionKey = none := by
          cases hk : v.encryptionKey with
          | none => rfl
          | some k =>
              have := hkey.mp (by simp [hk])
              rw [hs] at this; cases this
        cases hi : v.initialized with
        | false => exact Or.inl ⟨rfl, rfl, hk⟩
        | true => exact Or.inr (Or.inl ⟨rfl, rfl, hk⟩)
  · intro hi e token path pfx data ttl
    have hs := hsealed hi
    simp [Vault.WriteSecret, Vault.ReadSecret, Vault.DeleteSecret, Vault.ListSecrets,
      Vault.CreateToken, Vault.AuthenticateRootToken, hs, errSealed]

/-- The sample engine after `Initialize` and `Unseal` is reachable. -/
theorem sampleVault2_reachable : Reachable sampleDeps sampleVault2 :=
  Reachable.step _ _
    (Reachable.step _ _ (Reachable.new (.ok []) sampleVault0 rfl)
      (Step.Initialize sampleEnv sampleVault0))
    (Step.Unseal sampleVault1 sampleUnsealKey)

/-- C3 at the sample engine after `New`, `Initialize` and `Unseal`, which
is unsealed and holds the key. -/
theorem reachable_states_lifecycle_witness :
    Reachable sampleDeps sampleVault2 ∧
    sampleVault2.encryptionKey = some sampleKey ∧
    (sampleVault2.encryptionKey.isSome = true ↔ sampleVault2.sealed = false) :=
  ⟨sampleVault2_reachable, by decide,
   (reachable_states_lifecycle sampleDeps sampleVault2 sampleVault2_reachable).1⟩


/-! ## Initialize and Unseal -/

/-- What a successful `Initialize` did. -/
theorem Initialize_ok (D : Deps) (e : Env) (v : Vault) (resp : InitResponse)
    (h : (v.Initialize D e).2 = .ok resp) :
    v.initialized = false ∧
    ∃ k r c, e.GenerateKey = .ok k ∧ e.GenerateToken = .ok r ∧ D.Encrypt k k = .ok c ∧
      e.persist 0 = none ∧ e.persist 1 = none ∧
      resp = { RootToken := r, UnsealKey := Base64.EncodeToString k } ∧
      (v.Initialize D e).1 =
        { v with
            storage :=
              { data := (v.storage.data.set "core/unseal-key" c).set "core/root-token"
                  (HashToken D.Sum256 r)
                file := some ((v.storage.data.set "core/unseal-key" c).set
                  "core/root-token" (HashToken D.Sum256 r)) }
            tokenStore := (v.tokenStore.CreateToken r true 0 e.now).1
            initialized := true
            rootToken := r } := by
  unfold Vault.Initialize at h ⊢
  cases hi : v.initialized with
  | true => simp [hi] at h
  | false =>
    cases hk : e.GenerateKey with
    | error err => simp [hi, hk] at h
    | ok k =>
      cases ht : e.GenerateToken with
      | error err => simp [hi, hk, ht] at h
      | ok r =>
        cases hc : D.Encrypt k k with
        | error err => simp [hi, hk, ht, hc] at h
        | ok c =>
          cases hp0 : e.persist 0 with
          | some em =>
            obtain ⟨err, m⟩ := em
            cases m <;> simp [hi, hk, ht, hc, hp0, FileStorage.Put, FileStorage.persist] at h
          | none =>
            cases hp1 : e.persist 1 with
            | some em =>
              obtain ⟨err, m⟩ := em
              cases m <;>
                simp [hi, hk, ht, hc, hp0, hp1, FileStorage.Put, FileStorage.persist] at h
            | none =>
              simp [hi, hk, ht, hc, hp0, hp1, FileStorage.Put, FileStorage.persist] at h
              refine ⟨rfl, k, r, c, rfl, rfl, hc, rfl, rfl, h.symm, ?_⟩
              simp [hi, hk, ht, hc, hp0, hp1, FileStorage.Put, FileStorage.persist]

theorem unsealKey_ne_rootToken : ("core/unseal-key" : String) ≠ "core/root-token" := by decide

/-- After a successful `Initialize` the storage holds the verifier. -/
theorem Initialize_verifier (D : Deps) (e : Env) (v : Vault) (resp : InitResponse)
    (h : (v.Initialize D e).2 = .ok resp) :
    ∃ k c, e.GenerateKey = .ok k ∧ D.Encrypt k k = .ok c ∧
      resp.UnsealKey = Base64.EncodeToString k ∧
      (v.Initialize D e).1.storage.Get "core/unseal-key" = .ok c := by
  obtain ⟨_, k, r, c, hk, _, hc, _, _, hresp, hst⟩ := Initialize_ok D e v resp h
  refine ⟨k, c, hk, hc, by rw [hresp], ?_⟩
  rw [hst]
  simp [FileStorage.Get, GoMap.get_set_of_ne _ _ _ _ unsealKey_ne_rootToken,
    GoMap.get_set_self]

/-- The successful branch of `Unseal`. -/
theorem Unseal_ok (D : Deps) (v : Vault) (cand : String) (k p : Bytes) (c : Blob)
    (hi : v.initialized = true) (hs : v.sealed = true)
    (hdec : Base64.DecodeString cand = some k)
    (hget : v.storage.Get "core/unseal-key" = .ok c) (hdecrypt : D.Decrypt c k = .ok p) :
    v.Unseal D cand = ({ v with encryptionKey := some k, sealed := false }, none) := by
  simp [Vault.Unseal, hi, hs, hdec, hget, hdecrypt]

/-- A failing `Unseal` returns the engine as it was. -/
theorem Unseal_error_state (D : Deps) (v : Vault) (cand : String) (err : Error)
    (h : (v.Unseal D cand).2 = some err) : (v.Unseal D cand).1 = v := by
  unfold Vault.Unseal at h ⊢
  repeat' first | split | dsimp only
  all_goals simp_all

/-- The sample cipher decrypts what it encrypted under the same key. -/
theorem sampleDecrypt_sampleEncrypt (p k : Bytes) (c : String)
    (h : sampleEncrypt p k = .ok c) : sampleDecrypt c k = .ok p := by
  unfold sampleEncrypt at h
  split at h
  · rename_i hlen
    cases h
    have htake : List.take 32 (k ++ p) = k := by
      rw [← hlen]; simp
    have hdrop : List.drop 32 (k ++ p) = p := by
      rw [← hlen]; simp
    simp [sampleDecrypt, hlen, Base64.DecodeString_EncodeToString, htake, hdrop]
  · cases h

/-- The sample cipher rejects every key other than the encrypting one. -/
theorem sampleDecrypt_other_key (p k k' : Bytes) (c : String)
    (h : sampleEncrypt p k = .ok c) (hne : k' ≠ k) : ∃ err, sampleDecrypt c k' = .error err := by
  unfold sampleEncrypt at h
  split at h
  · rename_i hlen
    cases h
    unfold sampleDecrypt
    by_cases hlen' : k'.length = 32
    · have htake : List.take 32 (k ++ p) = k := by
        rw [← hlen]; simp
      have hne2 : ¬ k = k' := fun e => hne e.symm
      simp [hlen', Base64.DecodeString_EncodeToString, htake, hne2]
    · simp [hlen']
  · cases h

/-- The sample engine right after `Initialize` is reachable. -/
theorem sampleVault1_reachable : Reachable sampleDeps sampleVault1 :=
  Reachable.step _ _ (Reachable.new (.ok []) sampleVault0 rfl)
    (Step.Initialize sampleEnv sampleVault0)

/-- The sample run of `Initialize` succeeds with the root token `root-1` and
the base64 text of `sampleKey`. -/
theorem sampleInitialize_ok :
    (sampleVault0.Initialize sampleDeps sampleEnv).2 =
      .ok { RootToken := "root-1", UnsealKey := sampleUnsealKey } := by decide

/-- C4, as stated, fails: the sample cipher rejects every key other than
the encrypting one, `Initialize` returned the unseal key
`AAECAwQFBgcICQoLDA0ODxAREhMUFRYXGBkaGxwdHh8=`, and two other strings (the
same text followed by a line break; the same text with `9` for the last
`8`) unseal the initialized, sealed engine, because they decode to the same
key. -/
theorem unseal_accepts_other_strings :
    (∀ p k c k', sampleDeps.Encrypt p k = .ok c → k' ≠ k →
      ∃ err, sampleDeps.Decrypt c k' = .error err) ∧
    (sampleVault0.Initialize sampleDeps sampleEnv).2 =
      .ok { RootToken := "root-1",
            UnsealKey := "AAECAwQFBgcICQoLDA0ODxAREhMUFRYXGBkaGxwdHh8=" } ∧
    sampleVault1.initialized = true ∧ sampleVault1.sealed = true ∧
    "AAECAwQFBgcICQoLDA0ODxAREhMUFRYXGBkaGxwdHh8=\n" ≠
      "AAECAwQFBgcICQoLDA0ODxAREhMUFRYXGBkaGxwdHh8=" ∧
    sampleVault1.Unseal sampleDeps "AAECAwQFBgcICQoLDA0ODxAREhMUFRYXGBkaGxwdHh8=\n" =
      ({ sampleVault1 with encryptionKey := some sampleKey, sealed := false }, none) ∧
    "AAECAwQFBgcICQoLDA0ODxAREhMUFRYXGBkaGxwdHh9=" ≠
      "AAECAwQFBgcICQoLDA0ODxAREhMUFRYXGBkaGxwdHh8=" ∧
    sampleVault1.Unseal sampleDeps "AAECAwQFBgcICQoLDA0ODxAREhMUFRYXGBkaGxwdHh9=" =
      ({ sampleVault1 with encryptionKey := some sampleKey, sealed := false }, none) :=
  ⟨fun p k c k' h hne => sampleDecrypt_other_key p k k' c h hne,
   by decide, by decide, by decide, by decide, by decide, by decide, by decide⟩

/-- C4 (amended): let `Initialize` have succeeded and returned an unseal
key, and let an initialized, sealed engine still hold the verifier that
call persisted. If the cipher's `Decrypt` fails under every key other than
the encrypting one, then for every candidate string that does not decode to
the key the returned unseal key decodes to (in particular every string that
does not decode at all), `Unseal` returns an error, `sealed` stays true and
there is no key in memory. -/
theorem unseal_rejects_other_keys (D : Deps)
    (hcipher : ∀ p k c k', D.Encrypt p k = .ok c → k' ≠ k →
      ∃ err, D.Decrypt c k' = .error err)
    (e : Env) (v0 : Vault) (resp : InitResponse)
    (hinit : (v0.Initialize D e).2 = .ok resp)
    (v : Vault) (hreach : Reachable D v) (hi : v.initialized = true) (hs : v.sealed = true)
    (hver : v.storage.Get "core/unseal-key" =
      (v0.Initialize D e).1.storage.Get "core/unseal-key")
    (cand : String)
    (hother : Base64.DecodeString cand ≠ Base64.DecodeString resp.UnsealKey) :
    ∃ err, v.Unseal D cand = (v, some err) ∧ (v.Unseal D cand).1.sealed = true ∧
      (v.Unseal D cand).1.encryptionKey = none := by
  obtain ⟨k, c, _, hc, hresp, hget⟩ := Initialize_verifier D e v0 resp hinit
  rw [hget] at hver
  rw [hresp, Base64.DecodeString_EncodeToString] at hother
  have hnokey : v.encryptionKey = none := by
    have hkey := (Reachable_lifecycle D v hreach).1
    cases hk : v.encryptionKey with
    | none => rfl
    | some k0 =>
        have := hkey.mp (by simp [hk])
        rw [hs] at this; cases this
  have main : ∃ err, v.Unseal D cand = (v, some err) := by
    cases hdec : Base64.DecodeString cand with
    | none => exact ⟨errInvalidUnsealKeyFormat, by
        simp [Vault.Unseal, hi, hs, hdec, errInvalidUnsealKeyFormat]⟩
    | some k' =>
        have hne : k' ≠ k := by
          intro heq
          apply hother
          rw [hdec, heq]
        obtain ⟨err, herr⟩ := hcipher k k c k' hc hne
        exact ⟨errInvalidUnsealKey, by
          simp [Vault.Unseal, hi, hs, hdec, hver, herr, errInvalidUnsealKey]⟩
  obtain ⟨err, herr⟩ := main
  exact ⟨err, herr, by rw [herr]; exact hs, by rw [herr]; exact hnokey⟩

/-- C4 (amended) at the sample engine after `Initialize`, with the
candidate `AAAA`, which decodes to three zero octets. -/
theorem unseal_rejects_other_keys_witness :
    Reachable sampleDeps sampleVault1 ∧
    Base64.DecodeString "AAAA" ≠ Base64.DecodeString sampleUnsealKey ∧
    ∃ err, sampleVault1.Unseal sampleDeps "AAAA" = (sampleVault1, some err) ∧
      (sampleVault1.Unseal sampleDeps "AAAA").1.sealed = true ∧
      (sampleVault1.Unseal sampleDeps "AAAA").1.encryptionKey = none :=
  ⟨sampleVault1_reachable, by decide,
   unseal_rejects_other_keys sampleDeps
     (fun p k c k' h hne => sampleDecrypt_other_key p k k' c h hne)
     sampleEnv sampleVault0 { RootToken := "root-1", UnsealKey := sampleUnsealKey }
     sampleInitialize_ok sampleVault1 sampleVault1_reachable (by decide) (by decide) rfl
     "AAAA" (by decide)⟩

/-- C5: `Unseal` fails with `vault is not initialized` when
`initialized = false`; otherwise with `vault is already unsealed` when
`sealed = false`; otherwise with `invalid unseal key format` when the
candidate is not valid base64; otherwise with `invalid unseal key` when the
persisted verifier does not decrypt under the decoded candidate. Whenever
`Unseal` returns an error the engine (`sealed`, the key, `initialized`, the
storage, the token store) is exactly as before the call. -/
theorem unseal_error_order (D : Deps) (v : Vault) (cand : String) :
    (v.initialized = false → v.Unseal D cand = (v, some errNotInitialized)) ∧
    (v.initialized = true → v.sealed = false →
      v.Unseal D cand = (v, some errAlreadyUnsealed)) ∧
    (v.initialized = true → v.sealed = true → Base64.DecodeString cand = none →
      v.Unseal D cand = (v, some errInvalidUnsealKeyFormat)) ∧
    (∀ (k : Bytes) (c : Blob) (err : Error), v.initialized = true → v.sealed = true →
      Base64.DecodeString cand = some k → v.storage.Get "core/unseal-key" = .ok c →
      D.Decrypt c k = .error err → v.Unseal D cand = (v, some errInvalidUnsealKey)) ∧
    (∀ err : Error, (v.Unseal D cand).2 = some err → (v.Unseal D cand).1 = v) := by
  refine ⟨?_, ?_, ?_, ?_, ?_⟩
  · intro hi
    simp [Vault.Unseal, hi, errNotInitialized]
  · intro hi hs
    simp [Vault.Unseal, hi, hs, errAlreadyUnsealed]
  · intro hi hs hdec
    simp [Vault.Unseal, hi, hs, hdec, errInvalidUnsealKeyFormat]
  · intro k c err hi hs hdec hget hdecrypt
    simp [Vault.Unseal, hi, hs, hdec, hget, hdecrypt, errInvalidUnsealKey]
  · intro err h
    exact Unseal_error_state D v cand err h

/-- C5 at the sample engine after `Initialize`: a candidate that is not
base64 and a candidate that decodes to another key. -/
theorem unseal_error_order_witness :
    sampleVault1.Unseal sampleDeps "not base64!" =
      (sampleVault1, some errInvalidUnsealKeyFormat) ∧
    sampleVault1.Unseal sampleDeps "AAAA" = (sampleVault1, some errInvalidUnsealKey) :=
  ⟨(unseal_error_order sampleDeps sampleVault1 "not base64!").2.2.1
      (by decide) (by decide) (by decide),
   (unseal_error_order sampleDeps sampleVault1 "AAAA").2.2.2.1 [0, 0, 0]
      "AAECAwQFBgcICQoLDA0ODxAREhMUFRYXGBkaGxwdHh8AAQIDBAUGBwgJCgsMDQ4PEBESExQVFhcYGRobHB0eHw=="
      "invalid key size" (by decide) (by decide) (by decide) (by decide) (by decide)⟩

/-- The constructor `New` over a data file that holds the verifier gives an initialized,
sealed engine over that data. -/
theorem New_of_verifier (m : GoMap Blob) (c : Blob) (h : m.get "core/unseal-key" = some c) :
    New (.ok m) =
      .ok { storage := { data := m, file := some m }, tokenStore := NewTokenStore,
            sealed := true, initialized := true, encryptionKey := none, rootToken := "" } := by
  simp [New, NewFileStorage, Vault.checkInitialized, FileStorage.Get, h]

/-- C6: when `Initialize` succeeds with the response `(rootToken,
unsealKey)`, the returned unseal key decodes to the generated key `k`, and
if `Decrypt` accepts the verifier `Encrypt(k, k)` under `k`, then
`Unseal(unsealKey)` on a sealed engine that holds that verifier succeeds,
sets `sealed = false` and sets the key to `k`: on the same engine, and on
the engine `New` builds over the data file `Initialize` wrote. -/
theorem unseal_with_returned_key (D : Deps)
    (hcipher : ∀ k c, D.Encrypt k k = .ok c → ∃ p, D.Decrypt c k = .ok p)
    (e : Env) (v0 : Vault) (resp : InitResponse)
    (hinit : (v0.Initialize D e).2 = .ok resp) :
    ∃ k, e.GenerateKey = .ok k ∧ resp.UnsealKey = Base64.EncodeToString k ∧
      Base64.DecodeString resp.UnsealKey = some k ∧
      (∀ v : Vault, v.initialized = true → v.sealed = true →
        v.storage.Get "core/unseal-key" =
          (v0.Initialize D e).1.storage.Get "core/unseal-key" →
        v.Unseal D resp.UnsealKey =
          ({ v with encryptionKey := some k, sealed := false }, none)) ∧
      (v0.sealed = true →
        (v0.Initialize D e).1.Unseal D resp.UnsealKey =
          ({ (v0.Initialize D e).1 with encryptionKey := some k, sealed := false }, none)) ∧
      (∃ v2, New (v0.Initialize D e).1.storage.reload = .ok v2 ∧
        v2.sealed = true ∧ v2.tokenStore = NewTokenStore ∧
        v2.Unseal D resp.UnsealKey =
          ({ v2 with encryptionKey := some k, sealed := false }, none)) := by
  obtain ⟨k, c, hk, hc, hresp, hget⟩ := Initialize_verifier D e v0 resp hinit
  obtain ⟨p, hp⟩ := hcipher k c hc
  have hdec : Base64.DecodeString resp.UnsealKey = some k := by
    rw [hresp, Base64.DecodeString_EncodeToString]
  have general : ∀ v : Vault, v.initialized = true → v.sealed = true →
      v.storage.Get "core/unseal-key" =
        (v0.Initialize D e).1.storage.Get "core/unseal-key" →
      v.Unseal D resp.UnsealKey =
        ({ v with encryptionKey := some k, sealed := false }, none) := by
    intro v hi hs hver
    exact Unseal_ok D v resp.UnsealKey k p c hi hs hdec (hver.trans hget) hp
  obtain ⟨_, k1, r, c1, _, _, _, _, _, _, hst⟩ := Initialize_ok D e v0 resp hinit
  refine ⟨k, hk, hresp, hdec, general, ?_, ?_⟩
  · intro hs0
    apply general
    · rw [hst]
    · rw [(Initialize_flags D e v0).1]; exact hs0
    · rfl
  · have hdata : (v0.Initialize D e).1.storage.reload =
        .ok (v0.Initialize D e).1.storage.data := by
      rw [hst]
      rfl
    have hget2 : (v0.Initialize D e).1.storage.data.get "core/unseal-key" = some c := by
      simp only [FileStorage.Get] at hget
      split at hget
      · cases hget
      · rename_i value hv
        cases hget
        exact hv
    rw [hdata]
    refine ⟨_, New_of_verifier _ c hget2, rfl, rfl, ?_⟩
    apply general
    · rfl
    · rfl
    · rw [hget]
      simp [FileStorage.Get, hget2]

/-- C6 at the sample run: the unseal key `Initialize` returned opens the
sample engine, and the key in memory is `sampleKey`. -/
theorem unseal_with_returned_key_witness :
    (sampleVault0.Initialize sampleDeps sampleEnv).2 =
      .ok { RootToken := "root-1", UnsealKey := sampleUnsealKey } ∧
    sampleVault2.sealed = false ∧ sampleVault2.encryptionKey = some sampleKey ∧
    ∃ k, sampleEnv.GenerateKey = .ok k ∧ Base64.DecodeString sampleUnsealKey = some k :=
  ⟨sampleInitialize_ok, by decide, by decide,
   (unseal_with_returned_key sampleDeps
      (fun k c h => ⟨k, sampleDecrypt_sampleEncrypt k k c h⟩)
      sampleEnv sampleVault0 { RootToken := "root-1", UnsealKey := sampleUnsealKey }
      sampleInitialize_ok).imp (fun _ h => ⟨h.1, h.2.2.1⟩)⟩

/-! ## Initialize -/

theorem TokenStore.get_CreateToken (ts : TokenStore) (tokenID : String) (isRoot : Bool)
    (ttl : Int) (now : Time) :
    (ts.CreateToken tokenID isRoot ttl now).1.tokens.get tokenID =
      some { ID := tokenID, CreatedAt := now,
             ExpiresAt := if isRoot && ttl == 0 then now + hundredYears else now + ttl,
             IsRoot := isRoot } := by
  simp [TokenStore.CreateToken, GoMap.get_set_self]

/-- C7: when `Initialize` succeeds with generated key `k` and generated
root token `r`, the engine was uninitialized and afterwards the storage
maps `core/unseal-key` to `Encrypt(k, k)` and `core/root-token` to
`HashToken(r)`, every other storage key is as before and the data file
holds the same entries; the token store holds `r` as a root token that
validates (up to 100 years later); `initialized = true`; `sealed` is still
true with no key in memory; and the response is `(r, base64(k))`. -/
theorem initialize_success_effects (D : Deps) (e : Env) (v : Vault) (resp : InitResponse)
    (hreach : Reachable D v) (h : (v.Initialize D e).2 = .ok resp) :
    v.initialized = false ∧
    ∃ k r c, e.GenerateKey = .ok k ∧ e.GenerateToken = .ok r ∧ D.Encrypt k k = .ok c ∧
      resp = { RootToken := r, UnsealKey := Base64.EncodeToString k } ∧
      ∀ w, w = (v.Initialize D e).1 →
        w.storage.Get "core/unseal-key" = .ok c ∧
        w.storage.Get "core/root-token" = .ok (HashToken D.Sum256 r) ∧
        (∀ key, key ≠ "core/unseal-key" → key ≠ "core/root-token" →
          w.storage.Get key = v.storage.Get key) ∧
        w.storage.file = some w.storage.data ∧
        (∀ t : Time, t ≤ e.now + hundredYears → w.tokenStore.ValidateToken r t = none) ∧
        w.tokenStore.IsRootToken r = true ∧
        (∀ id, id ≠ r → w.tokenStore.tokens.get id = v.tokenStore.tokens.get id) ∧
        w.initialized = true ∧ w.sealed = true ∧ w.encryptionKey = none := by
  obtain ⟨hi, k, r, c, hk, hr, hc, _, _, hresp, hst⟩ := Initialize_ok D e v resp h
  obtain ⟨hkey, hinit⟩ := Reachable_lifecycle D v hreach
  have hs : v.sealed = true := by
    cases hs : v.sealed with
    | true => rfl
    | false => rw [hinit hs] at hi; cases hi
  have hnokey : v.encryptionKey = none := by
    cases hk : v.encryptionKey with
    | none => rfl
    | some k0 =>
        have := hkey.mp (by simp [hk])
        rw [hs] at this; cases this
  refine ⟨hi, k, r, c, hk, hr, hc, hresp, ?_⟩
  intro w hw
  rw [hst] at hw
  subst hw
  refine ⟨?_, ?_, ?_, rfl, ?_, ?_, ?_, rfl, hs, hnokey⟩
  · simp [FileStorage.Get, GoMap.get_set_of_ne _ _ _ _ unsealKey_ne_rootToken,
      GoMap.get_set_self]
  · simp [FileStorage.Get, GoMap.get_set_self]
  · intro key h1 h2
    simp [FileStorage.Get, GoMap.get_set_of_ne _ _ _ _ h1, GoMap.get_set_of_ne _ _ _ _ h2]
  · intro t ht
    simp only [TokenStore.ValidateToken, TokenStore.get_CreateToken]
    simp
    exact ht
  · simp [TokenStore.IsRootToken, TokenStore.get_CreateToken]
  · intro id hid
    simp [TokenStore.CreateToken, GoMap.get_set_of_ne _ _ _ _ hid]

/-- C7 at the sample run of `Initialize`. -/
theorem initialize_success_effects_witness :
    Reachable sampleDeps sampleVault0 ∧
    (sampleVault0.Initialize sampleDeps sampleEnv).2 =
      .ok { RootToken := "root-1", UnsealKey := sampleUnsealKey } ∧
    sampleVault0.initialized = false ∧
    sampleVault1.storage.Get "core/root-token" = .ok (HashToken sampleSum256 "root-1") :=
  ⟨Reachable.new (.ok []) sampleVault0 rfl, sampleInitialize_ok,
   (initialize_success_effects sampleDeps sampleEnv sampleVault0
      { RootToken := "root-1", UnsealKey := sampleUnsealKey }
      (Reachable.new (.ok []) sampleVault0 rfl) sampleInitialize_ok).1,
   by decide⟩

/-- C8: on an engine with `initialized = true`, `Initialize` fails with
`vault is already initialized` and returns the engine as it was (verifier,
root-token digest and every other storage entry, token store, `sealed`,
key); an engine is in that case after a successful `Initialize` and when
`New` found `core/unseal-key` in the data file. -/
theorem initialize_again_fails (D : Deps) :
    (∀ (e : Env) (v : Vault), v.initialized = true →
      v.Initialize D e = (v, .error errAlreadyInitialized)) ∧
    (∀ (e : Env) (v : Vault) (resp : InitResponse), (v.Initialize D e).2 = .ok resp →
      (v.Initialize D e).1.initialized = true) ∧
    (∀ (m : GoMap Blob) (c : Blob) (v : Vault), m.get "core/unseal-key" = some c →
      New (.ok m) = .ok v → v.initialized = true) := by
  refine ⟨?_, ?_, ?_⟩
  · intro e v hi
    simp [Vault.Initialize, hi, errAlreadyInitialized]
  · intro e v resp h
    obtain ⟨_, k, r, c, _, _, _, _, _, _, hst⟩ := Initialize_ok D e v resp h
    rw [hst]
  · intro m c v hget hnew
    rw [New_of_verifier m c hget] at hnew
    cases hnew
    rfl

/-- C8 at the sample engine: a second `Initialize`, with another key and
token on offer, is refused and changes nothing. -/
theorem initialize_again_fails_witness :
    sampleVault1.initialized = true ∧
    sampleVault1.Initialize sampleDeps
        { sampleEnv with GenerateKey := .ok [], GenerateToken := .ok "root-2" } =
      (sampleVault1, .error errAlreadyInitialized) :=
  ⟨by decide,
   (initialize_again_fails sampleDeps).1
     { sampleEnv with GenerateKey := .ok [], GenerateToken := .ok "root-2" }
     sampleVault1 (by decide)⟩

/-! ## Seal -/

/-- C9: `Seal` on an unsealed engine succeeds, sets `sealed = true`, clears
the key and leaves `initialized`, the storage and the token store (and the
remembered root token) as they were; `Seal` on a sealed engine fails with
`vault is already sealed` and changes nothing. -/
theorem seal_effects (v : Vault) :
    (v.sealed = false →
      v.Seal = ({ v with encryptionKey := none, sealed := true }, none) ∧
      v.Seal.1.sealed = true ∧ v.Seal.1.encryptionKey = none ∧
      v.Seal.1.initialized = v.initialized ∧ v.Seal.1.storage = v.storage ∧
      v.Seal.1.tokenStore = v.tokenStore) ∧
    (v.sealed = true → v.Seal = (v, some errAlreadySealed)) := by
  constructor
  · intro hs
    simp [Vault.Seal, hs]
  · intro hs
    simp [Vault.Seal, hs, errAlreadySealed]

/-- C9 at the sample engines: sealing the unsealed one gives back the
engine as it was before `Unseal`; sealing that one again fails. -/
theorem seal_effects_witness :
    sampleVault2.sealed = false ∧ sampleVault2.Seal = (sampleVault1, none) ∧
    sampleVault1.Seal = (sampleVault1, some errAlreadySealed) :=
  ⟨by decide,
   ((seal_effects sampleVault2).1 (by decide)).1.trans (by decide),
   (seal_effects sampleVault1).2 (by decide)⟩

/-! ## Writing and reading a secret -/

/-- What a successful `WriteSecret` did. -/
theorem WriteSecret_ok (D : Deps) (e : Env) (v : Vault) (token path : String)
    (data : GoMap JSONValue) (h : (v.WriteSecret D e token path data).2 = none) :
    v.sealed = false ∧ v.tokenStore.ValidateToken token e.now = none ∧
    ∃ bs c,
      D.Marshal { Data := data, Metadata := [], CreatedAt := e.now, UpdatedAt := e.now } =
        .ok bs ∧
      D.Encrypt bs v.keyBytes = .ok c ∧
      (v.WriteSecret D e token path data).1 =
        { v with storage :=
            { data := v.storage.data.set (Vault.secretKey path) c
              file := some (v.storage.data.set (Vault.secretKey path) c) } } := by
  unfold Vault.WriteSecret at h ⊢
  cases hs : v.sealed with
  | true => simp [hs] at h
  | false =>
    cases hv : v.tokenStore.ValidateToken token e.now with
    | some err => simp [hs, hv] at h
    | none =>
      cases hm : D.Marshal
          { Data := data, Metadata := [], CreatedAt := e.now, UpdatedAt := e.now } with
      | error err => simp [hs, hv, hm] at h
      | ok bs =>
        cases hc : D.Encrypt bs v.keyBytes with
        | error err => simp [hs, hv, hm, hc] at h
        | ok c =>
          cases hp : e.persist 0 with
          | some em =>
            obtain ⟨err, m⟩ := em
            cases m <;> simp [hs, hv, hm, hc, hp, FileStorage.Put, FileStorage.persist] at h
          | none =>
            refine ⟨rfl, rfl, bs, c, rfl, hc, ?_⟩
            simp [hs, hv, hm, hc, hp, FileStorage.Put, FileStorage.persist]

/-- Reading back what a successful write stored. -/
theorem ReadSecret_after_WriteSecret (D : Deps)
    (hcipher : ∀ p k c, D.Encrypt p k = .ok c → D.Decrypt c k = .ok p)
    (e1 e2 : Env) (v : Vault) (token path : String) (data : GoMap JSONValue)
    (hsafe : JSONSafe D data)
    (hw : (v.WriteSecret D e1 token path data).2 = none)
    (hvalid : v.tokenStore.ValidateToken token e2.now = none) :
    ∃ s, (v.WriteSecret D e1 token path data).1.ReadSecret D e2 token path =
        ((v.WriteSecret D e1 token path data).1, .ok s) ∧ s.Data = data := by
  obtain ⟨hs, _, bs, c, hm, hc, hst⟩ := WriteSecret_ok D e1 v token path data hw
  obtain ⟨s, hu, hdata⟩ := hsafe _ bs rfl hm
  have hd := hcipher bs v.keyBytes c hc
  refine ⟨s, ?_, hdata⟩
  rw [hst]
  simp [Vault.ReadSecret, hs, hvalid, FileStorage.Get, GoMap.get_set_self, Vault.keyBytes]
  simp only [Vault.keyBytes] at hd
  simp [hd, hu]

/-- C10: on an unsealed engine, for every path and every JSON-safe data
map, when `WriteSecret(token, path, data)` succeeds and the token is valid
at the time of the read, `ReadSecret(token, path)` returns a secret whose
`Data` is `data`; and when the path was written before with other data, the
read returns the data of the latest write only. The cipher is assumed to
decrypt what it encrypted under the same key. -/
theorem write_then_read (D : Deps)
    (hcipher : ∀ p k c, D.Encrypt p k = .ok c → D.Decrypt c k = .ok p)
    (e0 e1 e2 : Env) (v : Vault) (token path : String) (data0 data : GoMap JSONValue)
    (hsafe : JSONSafe D data)
    (hvalid : v.tokenStore.ValidateToken token e2.now = none) :
    ((v.WriteSecret D e1 token path data).2 = none →
      ∃ s, (v.WriteSecret D e1 token path data).1.ReadSecret D e2 token path =
          ((v.WriteSecret D e1 token path data).1, .ok s) ∧ s.Data = data) ∧
    (∀ w, w = (v.WriteSecret D e0 token path data0).1 →
      (w.WriteSecret D e1 token path data).2 = none →
      ∃ s, (w.WriteSecret D e1 token path data).1.ReadSecret D e2 token path =
          ((w.WriteSecret D e1 token path data).1, .ok s) ∧ s.Data = data) := by
  constructor
  · intro hw
    exact ReadSecret_after_WriteSecret D hcipher e1 e2 v token path data hsafe hw hvalid
  · intro w hw hw2
    have hts : w.tokenStore = v.tokenStore := by
      rw [hw]; exact (WriteSecret_flags D e0 v token path data0).2.2.2
    exact ReadSecret_after_WriteSecret D hcipher e1 e2 w token path data hsafe hw2
      (by rw [hts]; exact hvalid)

/-- The sample codec keeps the data map `x = 1`. -/
theorem sample_JSONSafe : JSONSafe sampleDeps [("x", .number 1)] := by
  intro s bs hs hm
  simp [sampleDeps, sampleMarshal, hs] at hm
  subst hm
  exact ⟨_, rfl, rfl⟩

/-- C10 at the unsealed sample engine: after writing `x = 2` and then
`x = 1` at `a/b` with the root token, the read returns `x = 1`. -/
theorem write_then_read_witness :
    JSONSafe sampleDeps [("x", .number 1)] ∧
    sampleVault2.tokenStore.ValidateToken "root-1" sampleEnv.now = none ∧
    (sampleVault2.WriteSecret sampleDeps sampleEnv "root-1" "a/b" [("x", .number 1)]).2 =
      none ∧
    ∃ s, ((sampleVault2.WriteSecret sampleDeps sampleEnv "root-1" "a/b"
              [("x", .number 2)]).1.WriteSecret sampleDeps sampleEnv "root-1" "a/b"
              [("x", .number 1)]).1.ReadSecret sampleDeps sampleEnv "root-1" "a/b" =
        (((sampleVault2.WriteSecret sampleDeps sampleEnv "root-1" "a/b"
              [("x", .number 2)]).1.WriteSecret sampleDeps sampleEnv "root-1" "a/b"
              [("x", .number 1)]).1, .ok s) ∧
      s.Data = [("x", .number 1)] :=
  ⟨sample_JSONSafe, by decide, by decide,
   (write_then_read sampleDeps
      (fun p k c h => sampleDecrypt_sampleEncrypt p k c h)
      sampleEnv sampleEnv sampleEnv sampleVault2 "root-1" "a/b"
      [("x", .number 2)] [("x", .number 1)] sample_JSONSafe (by decide)).2 _ rfl (by decide)⟩

/-! ## Listing secrets -/

theorem GoMap.mem_keys_iff {β : Type} (m : GoMap β) (key : String) :
    key ∈ m.keys ↔ ∃ b, m.get key = some b := by
  induction m with
  | nil => simp [GoMap.keys, GoMap.get]
  | cons kv rest ih =>
      obtain ⟨k, v⟩ := kv
      by_cases h : k = key
      · subst h
        simp [GoMap.keys, GoMap.get]
      · have h2 : ¬ key = k := fun e => h e.symm
        simp only [GoMap.keys, List.map_cons, List.mem_cons, h2, false_or, GoMap.get, h,
          if_false]
        exact ih

theorem FileStorage.Get_ok_iff (fs : FileStorage) (key : String) :
    (∃ blob, fs.Get key = .ok blob) ↔ key ∈ fs.data.keys := by
  rw [GoMap.mem_keys_iff]
  unfold FileStorage.Get
  cases h : fs.data.get key <;> simp

theorem secretKey_data (path : String) :
    (Vault.secretKey path).data = "secret/".data ++ path.data := rfl

theorem secretKey_length (path : String) : (Vault.secretKey path).length = 7 + path.length := by
  have h : (Vault.secretKey path).length = ("secret/".data ++ path.data).length := rfl
  rw [h, List.length_append]
  rfl

theorem secretKey_drop (path : String) : (Vault.secretKey path).drop 7 = path := by
  apply String.ext
  rw [String.data_drop, secretKey_data]
  rfl

theorem secretKey_injective (p q : String) (h : Vault.secretKey p = Vault.secretKey q) :
    p = q := by
  rw [← secretKey_drop p, ← secretKey_drop q, h]

/-- A key that starts with `secret/` is the storage key of the path that
follows the seven characters. -/
theorem eq_secretKey_of_prefix (key pfx : String)
    (h : (Vault.secretKey pfx).data <+: key.data) :
    key = Vault.secretKey (key.drop 7) ∧ pfx.data <+: (key.drop 7).data := by
  obtain ⟨rest, hrest⟩ := h
  rw [secretKey_data, List.append_assoc] at hrest
  constructor
  · apply String.ext
    rw [secretKey_data, String.data_drop, ← hrest]
    rfl
  · rw [String.data_drop, ← hrest]
    exact ⟨rest, rfl⟩

/-- What `ListSecrets` returns on an unsealed engine with a valid token. -/
theorem ListSecrets_ok (e : Env) (v : Vault) (token pfx : String)
    (hu : v.sealed = false) (hvalid : v.tokenStore.ValidateToken token e.now = none) :
    ∃ l, v.ListSecrets e token pfx = (v, .ok l) ∧
      ∀ p : String, p ∈ l ↔
        (p ≠ "" ∧ pfx.data <+: p.data ∧
          ∃ blob, v.storage.Get (Vault.secretKey p) = .ok blob) := by
  refine ⟨((v.storage.data.keys.filter (fun key =>
      (Vault.secretKey pfx).length == 0 ||
        (decide (key.length ≥ (Vault.secretKey pfx).length) &&
          (Vault.secretKey pfx).data.isPrefixOf key.data))).filter
      (fun k => decide (k.length > 7))).map (fun k => k.drop 7), ?_, ?_⟩
  · simp only [Vault.ListSecrets, hu, hvalid, FileStorage.List]
    rfl
  intro p
  rw [List.mem_map, FileStorage.Get_ok_iff]
  have hne0 : ¬ (Vault.secretKey pfx).length = 0 := by
    rw [secretKey_length]; omega
  constructor
  · rintro ⟨k, hmem, hdrop⟩
    rw [List.mem_filter, List.mem_filter] at hmem
    obtain ⟨⟨hk, hP⟩, hlen⟩ := hmem
    have hP2 : (Vault.secretKey pfx).data <+: k.data := by
      rw [Bool.or_eq_true] at hP
      rcases hP with h0 | h1
      · exact absurd (by simpa using h0) hne0
      · rw [Bool.and_eq_true] at h1
        exact List.isPrefixOf_iff_prefix.mp h1.2
    have hlen : 7 < k.length := by simpa using hlen
    obtain ⟨hkey, hpfx⟩ := eq_secretKey_of_prefix k pfx hP2
    rw [hdrop] at hkey hpfx
    refine ⟨?_, hpfx, by rw [← hkey]; exact hk⟩
    intro hempty
    rw [hkey, secretKey_length, hempty] at hlen
    simp at hlen
  · rintro ⟨hne, ⟨rest, hrest⟩, hk⟩
    refine ⟨Vault.secretKey p, ?_, secretKey_drop p⟩
    rw [List.mem_filter, List.mem_filter]
    have hle : (Vault.secretKey pfx).length ≤ (Vault.secretKey p).length := by
      rw [secretKey_length, secretKey_length]
      simp only [String.length, ← hrest, List.length_append]
      omega
    have hpre : (Vault.secretKey pfx).data <+: (Vault.secretKey p).data :=
      ⟨rest, by rw [secretKey_data, secretKey_data, List.append_assoc, hrest]⟩
    have hpos : 0 < p.length := by
      rcases hp : p.data with _ | ⟨c, cs⟩
      · exact absurd (String.ext hp) hne
      · simp [String.length, hp]
    refine ⟨⟨hk, ?_⟩, ?_⟩
    · simp [hle, hpre]
    · simp only [decide_eq_true_eq, secretKey_length]
      omega

/-- The map in memory after `DeleteSecret` got past the lookup. -/
theorem DeleteSecret_ok (e : Env) (v : Vault) (token path : String)
    (h : (v.DeleteSecret e token path).2 = none) :
    (v.DeleteSecret e token path).1.storage.data =
      v.storage.data.delete (Vault.secretKey path) := by
  unfold Vault.DeleteSecret at h ⊢
  cases hs : v.sealed with
  | true => simp [hs] at h
  | false =>
    simp only [hs, Bool.false_eq_true, if_false] at h ⊢
    cases hv : v.tokenStore.ValidateToken token e.now with
    | some err => simp [hv] at h
    | none =>
      simp only [hv] at h ⊢
      unfold FileStorage.Delete at h ⊢
      cases hg : v.storage.data.get (Vault.secretKey path) with
      | none => simp [hg] at h
      | some blob =>
        cases hp : e.persist 0 with
        | none => simp [hg, hp, FileStorage.persist]
        | some em =>
          obtain ⟨err, m⟩ := em
          cases m <;> simp [hg, hp, FileStorage.persist]

/-- C11 (amended): on an unsealed engine with a valid token, for every
prefix (the empty one included) `ListSecrets(token, prefix)` succeeds,
leaves the engine as it was and returns, as a set, exactly the non-empty
paths `p` that start with the prefix and under whose key the storage holds
an entry. The entries are those of the successful writes that no successful
delete followed: a successful `WriteSecret` at `q` adds `q` and a successful
`DeleteSecret` at `q` removes `q`, whatever was done before. -/
theorem list_secrets_exact (e : Env) (v : Vault) (token pfx : String)
    (hu : v.sealed = false)
    (hvalid : v.tokenStore.ValidateToken token e.now = none) :
    (∃ l, v.ListSecrets e token pfx = (v, .ok l) ∧
      ∀ p : String, p ∈ l ↔
        (p ≠ "" ∧ pfx.data <+: p.data ∧
          ∃ blob, v.storage.Get (Vault.secretKey p) = .ok blob)) ∧
    (∀ (D : Deps) (e1 : Env) (tok q : String) (data : GoMap JSONValue),
      (v.WriteSecret D e1 tok q data).2 = none →
      ∀ p : String,
        (∃ blob, (v.WriteSecret D e1 tok q data).1.storage.Get (Vault.secretKey p) = .ok blob) ↔
          (p = q ∨ ∃ blob, v.storage.Get (Vault.secretKey p) = .ok blob)) ∧
    (∀ (e1 : Env) (tok q : String), (v.DeleteSecret e1 tok q).2 = none →
      ∀ p : String,
        (∃ blob, (v.DeleteSecret e1 tok q).1.storage.Get (Vault.secretKey p) = .ok blob) ↔
          (p ≠ q ∧ ∃ blob, v.storage.Get (Vault.secretKey p) = .ok blob)) := by
  refine ⟨ListSecrets_ok e v token pfx hu hvalid, ?_, ?_⟩
  · intro D e1 tok q data hw p
    obtain ⟨_, _, bs, c, _, _, hst⟩ := WriteSecret_ok D e1 v tok q data hw
    rw [hst]
    by_cases hpq : p = q
    · subst hpq
      simp [FileStorage.Get, GoMap.get_set_self]
    · have hkey : Vault.secretKey p ≠ Vault.secretKey q :=
        fun h => hpq (secretKey_injective p q h)
      simp [FileStorage.Get, GoMap.get_set_of_ne _ _ _ _ hkey, hpq]
  · intro e1 tok q hd p
    have hst := DeleteSecret_ok e1 v tok q hd
    by_cases hpq : p = q
    · subst hpq
      simp [FileStorage.Get, hst, GoMap.get_delete_self]
    · have hkey : Vault.secretKey p ≠ Vault.secretKey q :=
        fun h => hpq (secretKey_injective p q h)
      simp [FileStorage.Get, hst, GoMap.get_delete_of_ne _ _ _ hkey, hpq]

/-- C11, as stated, fails at the empty path: on the unsealed sample engine
the write at the path `""` succeeds, the storage holds the entry and
`ReadSecret` returns it, the path starts with the empty prefix, and
`ListSecrets` with the empty prefix returns `a/b` alone. -/
theorem list_secrets_omits_empty_path :
    sampleVault3.sealed = false ∧
    sampleVault3.tokenStore.ValidateToken "root-1" sampleEnv.now = none ∧
    (sampleVault3.WriteSecret sampleDeps sampleEnv "root-1" "" [("x", .number 1)]).2 = none ∧
    (sampleVault4.storage.Get (Vault.secretKey "")).toBool = true ∧
    (sampleVault4.ReadSecret sampleDeps sampleEnv "root-1" "").2.toBool = true ∧
    "".data <+: "".data ∧
    sampleVault4.ListSecrets sampleEnv "root-1" "" = (sampleVault4, .ok ["a/b"]) :=
  ⟨by decide, by decide, by decide, by decide, by decide, List.prefix_refl _, by decide⟩

/-- C11 (amended) at the sample engine with secrets at `a/b` and at the
empty path, listed under the prefix `a/`. -/
theorem list_secrets_exact_witness :
    sampleVault4.sealed = false ∧
    sampleVault4.tokenStore.ValidateToken "root-1" sampleEnv.now = none ∧
    sampleVault4.ListSecrets sampleEnv "root-1" "a/" = (sampleVault4, .ok ["a/b"]) ∧
    ∃ l, sampleVault4.ListSecrets sampleEnv "root-1" "a/" = (sampleVault4, .ok l) ∧
      ∀ p : String, p ∈ l ↔
        (p ≠ "" ∧ "a/".data <+: p.data ∧
          ∃ blob, sampleVault4.storage.Get (Vault.secretKey p) = .ok blob) :=
  ⟨by decide, by decide, by decide,
   (list_secrets_exact sampleEnv sampleVault4 "root-1" "a/" (by decide) (by decide)).1⟩

/-! ## Token administration -/

theorem TokenStore.ValidateToken_unknown (ts : TokenStore) (tokenID : String) (now : Time)
    (h : ts.tokens.get tokenID = none) : ts.ValidateToken tokenID now = some errInvalidToken := by
  simp [TokenStore.ValidateToken, h, errInvalidToken]

theorem TokenStore.ValidateToken_known (ts : TokenStore) (tokenID : String) (now : Time)
    (t : Token) (h : ts.tokens.get tokenID = some t) :
    ts.ValidateToken tokenID now =
      if now > t.ExpiresAt then some errTokenExpired else none := by
  simp [TokenStore.ValidateToken, h, errTokenExpired]

/-- C12: on an unsealed engine `CreateToken` succeeds only when the caller
token is valid and root (and then, when the generator yields a token,
registers it as a non-root token and returns it); with a valid token that
is not root it fails with `only root token can create new tokens`, with an
unknown token with `invalid token`, with an expired one with `token
expired`; and whenever it fails the engine, the token store included, is as
before. -/
theorem create_token_authorization (e : Env) (v : Vault) (caller : String) (ttl : Int)
    (hu : v.sealed = false) :
    (∀ newToken, (v.CreateToken e caller ttl).2 = .ok newToken →
      v.tokenStore.ValidateToken caller e.now = none ∧
      v.tokenStore.IsRootToken caller = true) ∧
    (v.tokenStore.ValidateToken caller e.now = none →
      v.tokenStore.IsRootToken caller = true →
      ∀ newToken, e.GenerateToken = .ok newToken →
        v.CreateToken e caller ttl =
          ({ v with tokenStore := (v.tokenStore.CreateToken newToken false ttl e.now).1 },
           .ok newToken)) ∧
    (v.tokenStore.ValidateToken caller e.now = none →
      v.tokenStore.IsRootToken caller = false →
      v.CreateToken e caller ttl = (v, .error errOnlyRoot)) ∧
    (v.tokenStore.tokens.get caller = none →
      v.CreateToken e caller ttl = (v, .error errInvalidToken)) ∧
    (∀ t, v.tokenStore.tokens.get caller = some t → e.now > t.ExpiresAt →
      v.CreateToken e caller ttl = (v, .error errTokenExpired)) ∧
    (∀ err, (v.CreateToken e caller ttl).2 = .error err →
      (v.CreateToken e caller ttl).1 = v) := by
  refine ⟨?_, ?_, ?_, ?_, ?_, ?_⟩
  · intro newToken h
    unfold Vault.CreateToken at h
    cases hv : v.tokenStore.ValidateToken caller e.now with
    | some err => simp [hu, hv] at h
    | none =>
      cases hr : v.tokenStore.IsRootToken caller with
      | false => simp [hu, hv, hr] at h
      | true => exact ⟨rfl, rfl⟩
  · intro hv hr newToken hg
    simp [Vault.CreateToken, hu, hv, hr, hg]
  · intro hv hr
    simp [Vault.CreateToken, hu, hv, hr, errOnlyRoot]
  · intro hnone
    simp [Vault.CreateToken, hu, TokenStore.ValidateToken_unknown _ _ _ hnone]
  · intro t ht hexp
    simp [Vault.CreateToken, hu, TokenStore.ValidateToken_known _ _ _ t ht, hexp]
  · intro err h
    unfold Vault.CreateToken at h ⊢
    cases hv : v.tokenStore.ValidateToken caller e.now with
    | some err => simp [hu, hv]
    | none =>
      cases hr : v.tokenStore.IsRootToken caller with
      | false => simp [hu, hv, hr]
      | true =>
        cases hg : e.GenerateToken with
        | error err => simp [hu, hv, hr, hg]
        | ok newToken => simp [hu, hv, hr, hg] at h

/-- C12 at the sample engine with the non-root token `guest`: the call is
refused and the engine is unchanged. -/
theorem create_token_authorization_witness :
    sampleVault5.sealed = false ∧
    sampleVault5.tokenStore.ValidateToken "guest" sampleEnv.now = none ∧
    sampleVault5.tokenStore.IsRootToken "guest" = false ∧
    sampleVault5.CreateToken sampleEnv "guest" 60 = (sampleVault5, .error errOnlyRoot) :=
  ⟨by decide, by decide, by decide,
   (create_token_authorization sampleEnv sampleVault5 "guest" 60 (by decide)).2.2.1
     (by decide) (by decide)⟩

/-- C13: on an unsealed engine whose storage holds a root-token digest,
`AuthenticateRootToken(candidate)` succeeds exactly when
`HashToken(candidate)` is the persisted digest. On success only the token
store changes: the candidate is then valid (for 100 years) and root, also
when the store did not hold it before, and a `ReadSecret` with it returns
every secret the storage holds under the current key, where before the call
it failed with `invalid token`. On a mismatch the call fails with `invalid
root token` and the engine, the token store included, is as before. -/
theorem authenticate_root_token_effects (D : Deps) (e : Env) (v : Vault)
    (candidate : String) (digest : Blob)
    (hu : v.sealed = false) (hdigest : v.storage.Get "core/root-token" = .ok digest) :
    ((v.AuthenticateRootToken D e candidate).2 = none ↔
      HashToken D.Sum256 candidate = digest) ∧
    (HashToken D.Sum256 candidate = digest →
      ∀ w, w = (v.AuthenticateRootToken D e candidate).1 →
        w = { v with tokenStore := (v.tokenStore.CreateToken candidate true 0 e.now).1 } ∧
        (∀ t : Time, t ≤ e.now + hundredYears →
          w.tokenStore.ValidateToken candidate t = none) ∧
        w.tokenStore.IsRootToken candidate = true ∧
        (∀ (e2 : Env) (path : String) (blob : Blob) (bs : Bytes) (s : Secret),
          e2.now ≤ e.now + hundredYears →
          v.storage.Get (Vault.secretKey path) = .ok blob →
          D.Decrypt blob v.keyBytes = .ok bs → D.Unmarshal bs = .ok s →
          w.ReadSecret D e2 candidate path = (w, .ok s))) ∧
    (v.tokenStore.tokens.get candidate = none →
      ∀ (e2 : Env) (path : String),
        v.ReadSecret D e2 candidate path = (v, .error errInvalidToken)) ∧
    (HashToken D.Sum256 candidate ≠ digest →
      v.AuthenticateRootToken D e candidate = (v, some errInvalidRootToken)) := by
  have hok : HashToken D.Sum256 candidate = digest →
      v.AuthenticateRootToken D e candidate =
        ({ v with tokenStore := (v.tokenStore.CreateToken candidate true 0 e.now).1 },
         none) := by
    intro h
    simp [Vault.AuthenticateRootToken, hu, hdigest, h]
  have hbad : HashToken D.Sum256 candidate ≠ digest →
      v.AuthenticateRootToken D e candidate = (v, some errInvalidRootToken) := by
    intro h
    simp [Vault.AuthenticateRootToken, hu, hdigest, h, errInvalidRootToken]
  refine ⟨?_, ?_, ?_, hbad⟩
  · constructor
    · intro h
      by_contra hne
      rw [hbad hne] at h
      cases h
    · intro h
      rw [hok h]
  · intro h w hw
    rw [hok h] at hw
    subst hw
    have hvalid : ∀ t : Time, t ≤ e.now + hundredYears →
        (v.tokenStore.CreateToken candidate true 0 e.now).1.ValidateToken candidate t =
          none := by
      intro t ht
      simp only [TokenStore.ValidateToken, TokenStore.get_CreateToken]
      simp
      exact ht
    refine ⟨rfl, hvalid, ?_, ?_⟩
    · simp [TokenStore.IsRootToken, TokenStore.get_CreateToken]
    · intro e2 path blob bs s ht hget hdec hun
      have hdec2 : D.Decrypt blob (v.encryptionKey.getD []) = .ok bs := hdec
      simp [Vault.ReadSecret, hu, hvalid e2.now ht, hget, Vault.keyBytes, hdec2, hun]
  · intro hnone e2 path
    simp [Vault.ReadSecret, hu, TokenStore.ValidateToken_unknown _ _ _ hnone]

/-- C13 at the sample engine after a restart (empty token store, unsealed
again): the root token authenticates and is then valid and root. -/
theorem authenticate_root_token_effects_witness :
    sampleVault6.sealed = false ∧ sampleVault6.tokenStore = NewTokenStore ∧
    sampleVault6.storage.Get "core/root-token" = .ok (HashToken sampleSum256 "root-1") ∧
    sampleVault6.ReadSecret sampleDeps sampleEnv "root-1" "a/b" =
      (sampleVault6, .error errInvalidToken) ∧
    (sampleVault6.AuthenticateRootToken sampleDeps sampleEnv "root-1").2 = none ∧
    (sampleVault6.AuthenticateRootToken sampleDeps sampleEnv "root-1").1.tokenStore.IsRootToken
      "root-1" = true ∧
    ((sampleVault6.AuthenticateRootToken sampleDeps sampleEnv "root-1").1.ReadSecret
      sampleDeps sampleEnv "root-1" "a/b").2.toBool = true ∧
    (sampleVault6.AuthenticateRootToken sampleDeps sampleEnv "wrong").2 =
      some errInvalidRootToken :=
  ⟨by decide, by decide, by decide,
   (authenticate_root_token_effects sampleDeps sampleEnv sampleVault6 "root-1"
      (HashToken sampleSum256 "root-1") (by decide) (by decide)).2.2.1 (by decide)
      sampleEnv "a/b",
   by decide, by decide, by decide, by decide⟩

/-- The restart behind `sampleVault6`: `New` over the data file of
`sampleVault3` succeeds, and unsealing its engine gives `sampleVault6`. -/
theorem sampleVault6_restart :
    ∃ v, New sampleVault3.storage.reload = .ok v ∧
      (v.Unseal sampleDeps sampleUnsealKey).1 = sampleVault6 :=
  ⟨_, by decide, rfl⟩

/-! ## Token expiry -/

/-- C14: `CreateToken(id, isRoot, ttl)` at time `t` replaces any earlier
entry for `id` by the token with `CreatedAt = t` and `ExpiresAt = t + d`,
where `d` is 100 years when `isRoot` and `ttl = 0` and `ttl` otherwise, and
leaves every other entry as it was; `ValidateToken(id)` at a time `t'` then
returns `nil` when `t' ≤ t + d` and `token expired` when `t' > t + d`;
`ValidateToken` of an id the store does not hold returns `invalid token`.
The product `100 * 365 * 24 * time.Hour` is 3153600000000000000 nanoseconds
and stays in the range of `int64` at every step. -/
theorem token_expiry (ts : TokenStore) (id : String) (isRoot : Bool) (ttl : Int) (t : Time) :
    (∀ d : Int, d = (if isRoot = true ∧ ttl = 0 then hundredYears else ttl) →
      (ts.CreateToken id isRoot ttl t).2 =
        { ID := id, CreatedAt := t, ExpiresAt := t + d, IsRoot := isRoot } ∧
      (ts.CreateToken id isRoot ttl t).1.tokens.get id =
        some { ID := id, CreatedAt := t, ExpiresAt := t + d, IsRoot := isRoot } ∧
      (∀ other, other ≠ id →
        (ts.CreateToken id isRoot ttl t).1.tokens.get other = ts.tokens.get other) ∧
      (∀ t' : Time, t' ≤ t + d →
        (ts.CreateToken id isRoot ttl t).1.ValidateToken id t' = none) ∧
      (∀ t' : Time, t' > t + d →
        (ts.CreateToken id isRoot ttl t).1.ValidateToken id t' = some errTokenExpired)) ∧
    (∀ (unknown : String) (t' : Time), ts.tokens.get unknown = none →
      ts.ValidateToken unknown t' = some errInvalidToken) ∧
    hundredYears = 3153600000000000000 ∧
    wrapInt64 (100 * 365) = 100 * 365 ∧
    wrapInt64 (100 * 365 * 24) = 100 * 365 * 24 ∧
    wrapInt64 (100 * 365 * 24 * Hour) = hundredYears ∧
    hundredYears ≤ maxInt64 := by
  refine ⟨?_, ?_, by decide, by decide, by decide, by decide, by decide⟩
  · intro d hd
    have hexp : (if (isRoot && ttl == 0) = true then t + hundredYears else t + ttl) = t + d := by
      subst hd
      cases isRoot <;> by_cases h0 : ttl = 0 <;> simp [h0]
    have hget := TokenStore.get_CreateToken ts id isRoot ttl t
    rw [hexp] at hget
    refine ⟨?_, hget, ?_, ?_, ?_⟩
    · simp only [TokenStore.CreateToken]
      rw [hexp]
    · intro other hne
      simp [TokenStore.CreateToken, GoMap.get_set_of_ne _ _ _ _ hne]
    · intro t' ht'
      rw [TokenStore.ValidateToken_known _ _ _ _ hget]
      have : ¬ t' > t + d := not_lt.mpr ht'
      simp [this]
    · intro t' ht'
      rw [TokenStore.ValidateToken_known _ _ _ _ hget]
      simp [ht']
  · intro unknown t' h
    exact TokenStore.ValidateToken_unknown ts unknown t' h

/-- C14 at the sample store: the token `guest`, created at 1000 with a
lifetime of 1000, validates at 2000 and has expired at 2001; the root token
created at 1000 with `ttl = 0` still validates a century later. -/
theorem token_expiry_witness :
    sampleTokenStore.ValidateToken "guest" 2000 = none ∧
    sampleTokenStore.ValidateToken "guest" 2001 = some errTokenExpired ∧
    sampleTokenStore.ValidateToken "root-1" (1000 + hundredYears) = none ∧
    sampleTokenStore.ValidateToken "nobody" 0 = some errInvalidToken :=
  ⟨((token_expiry sampleVault2.tokenStore "guest" false 1000 1000).1 1000 (by decide)).2.2.2.1
      2000 (by decide),
   ((token_expiry sampleVault2.tokenStore "guest" false 1000 1000).1 1000 (by decide)).2.2.2.2
      2001 (by decide),
   by decide,
   (token_expiry sampleTokenStore "x" false 0 0).2.1 "nobody" 0 (by decide)⟩

/-! ## A failing Initialize -/

/-- C16, evaluated where it fails. From the empty sample engine, with the
first write of the data file succeeding and the second failing,
`Initialize` returns the write error and leaves `initialized = false`, but
the storage is not as before: the map in memory holds both reserved
entries. When the second write could not open the file, the data file holds
`core/unseal-key` without `core/root-token`, `New` over it reports an
initialized engine, and that engine refuses `Initialize`, although no
unseal key was ever returned. When the second write stopped after
truncating the file, the data file holds no map any more and `New` over it
fails. With the first write already failing after truncation, the data
file holds no map either and the map in memory holds `core/unseal-key`. -/
theorem initialize_failure_not_atomic :
    sampleVault0.initialized = false ∧
    (sampleVault0.Initialize sampleDeps sampleEnvSecondOpenFails).2 =
      .error "open vault.db: too many open files" ∧
    (sampleVault0.Initialize sampleDeps sampleEnvSecondOpenFails).1.initialized = false ∧
    (sampleVault0.Initialize sampleDeps sampleEnvSecondOpenFails).1.storage ≠
      sampleVault0.storage ∧
    (sampleVault0.Initialize sampleDeps sampleEnvSecondOpenFails).1.storage.file =
      some [("core/unseal-key", sampleVerifier)] ∧
    GoMap.get [("core/unseal-key", sampleVerifier)] "core/root-token" = none ∧
    New (sampleVault0.Initialize sampleDeps sampleEnvSecondOpenFails).1.storage.reload =
      .ok sampleVault7 ∧
    sampleVault7.initialized = true ∧
    sampleVault7.Initialize sampleDeps sampleEnv =
      (sampleVault7, .error errAlreadyInitialized) ∧
    (sampleVault0.Initialize sampleDeps sampleEnvSecondWriteFails).2 =
      .error "write vault.db: no space left on device" ∧
    (sampleVault0.Initialize sampleDeps sampleEnvSecondWriteFails).1.initialized = false ∧
    ((sampleVault0.Initialize sampleDeps sampleEnvSecondWriteFails).1.storage.data.get
      "core/unseal-key").isSome = true ∧
    ((sampleVault0.Initialize sampleDeps sampleEnvSecondWriteFails).1.storage.data.get
      "core/root-token").isSome = true ∧
    (sampleVault0.Initialize sampleDeps sampleEnvSecondWriteFails).1.storage.file = none ∧
    New (sampleVault0.Initialize sampleDeps sampleEnvSecondWriteFails).1.storage.reload =
      .error "unexpected end of JSON input" ∧
    (sampleVault0.Initialize sampleDeps sampleEnvWriteFails).2 =
      .error "write vault.db: no space left on device" ∧
    (sampleVault0.Initialize sampleDeps sampleEnvWriteFails).1.storage.file = none ∧
    ((sampleVault0.Initialize sampleDeps sampleEnvWriteFails).1.storage.data.get
      "core/unseal-key").isSome = true := by
  decide

/-- Whatever makes `Initialize` fail on an uninitialized engine, it leaves
`initialized`, `sealed`, the key and the token store as they were; and a
failure of key generation, token generation or encryption leaves the whole
engine, the storage included, as it was. -/
theorem Initialize_error_frame (D : Deps) (e : Env) (v : Vault) (err : Error)
    (h : (v.Initialize D e).2 = .error err) :
    (v.Initialize D e).1.initialized = v.initialized ∧
    (v.Initialize D e).1.sealed = v.sealed ∧
    (v.Initialize D e).1.encryptionKey = v.encryptionKey ∧
    (v.Initialize D e).1.tokenStore = v.tokenStore ∧
    ((∀ k, e.GenerateKey ≠ .ok k) ∨ (∀ r, e.GenerateToken ≠ .ok r) ∨
        (∀ k c, e.GenerateKey = .ok k → D.Encrypt k k ≠ .ok c) →
      (v.Initialize D e).1 = v) := by
  unfold Vault.Initialize at h ⊢
  cases hi : v.initialized with
  | true => simp [hi]
  | false =>
    cases hk : e.GenerateKey with
    | error err => simp [hi, hk]
    | ok k =>
      cases ht : e.GenerateToken with
      | error err => simp [hi, hk, ht]
      | ok r =>
        cases hc : D.Encrypt k k with
        | error err => simp [hi, hk, ht, hc]
        | ok c =>
          have hno : ¬ ((∀ k', ¬ k = k') ∨ (∀ r', ¬ r = r') ∨
              ∀ k' c', k = k' → D.Encrypt k' k' ≠ .ok c') := by
            rintro (h1 | h1 | h1)
            · exact h1 k rfl
            · exact h1 r rfl
            · exact h1 k c rfl hc
          cases hp0 : e.persist 0 with
          | some em =>
            obtain ⟨err0, m⟩ := em
            cases m <;> simp [hi, hk, ht, hc, hp0, FileStorage.Put, FileStorage.persist, hno]
          | none =>
            cases hp1 : e.persist 1 with
            | some em =>
              obtain ⟨err1, m⟩ := em
              cases m <;>
                simp [hi, hk, ht, hc, hp0, hp1, FileStorage.Put, FileStorage.persist, hno]
            | none =>
              simp [hi, hk, ht, hc, hp0, hp1, FileStorage.Put, FileStorage.persist] at h

/-! ## The reserved keys -/

theorem secretKey_ne_unsealKey (path : String) : Vault.secretKey path ≠ "core/unseal-key" := by
  intro h
  have hd := congrArg String.data h
  rw [secretKey_data] at hd
  cases hd

theorem secretKey_ne_rootToken (path : String) : Vault.secretKey path ≠ "core/root-token" := by
  intro h
  have hd := congrArg String.data h
  rw [secretKey_data] at hd
  cases hd

/-- The map in memory and the data file after `WriteSecret`, whatever its
outcome. -/
theorem WriteSecret_data (D : Deps) (e : Env) (v : Vault) (token path : String)
    (data : GoMap JSONValue) :
    ((v.WriteSecret D e token path data).1.storage.data = v.storage.data ∨
      ∃ c, (v.WriteSecret D e token path data).1.storage.data =
        v.storage.data.set (Vault.secretKey path) c) ∧
    ((v.WriteSecret D e token path data).1.storage.file = v.storage.file ∨
      (v.WriteSecret D e token path data).1.storage.file =
        some (v.WriteSecret D e token path data).1.storage.data ∨
      (v.WriteSecret D e token path data).1.storage.file = none) ∧
    ((v.WriteSecret D e token path data).2 = none →
      (v.WriteSecret D e token path data).1.storage.file =
        some (v.WriteSecret D e token path data).1.storage.data) := by
  unfold Vault.WriteSecret
  cases hs : v.sealed with
  | true => simp
  | false =>
    cases hv : v.tokenStore.ValidateToken token e.now with
    | some err => simp
    | none =>
      cases hm : D.Marshal
          { Data := data, Metadata := [], CreatedAt := e.now, UpdatedAt := e.now } with
      | error err => simp [hm]
      | ok bs =>
        cases hc : D.Encrypt bs v.keyBytes with
        | error err => simp [hm, hc]
        | ok c =>
          cases hp : e.persist 0 with
          | none => simp [hm, hc, FileStorage.Put, FileStorage.persist, hp]
          | some em =>
            obtain ⟨err, m⟩ := em
            cases m <;> simp [hm, hc, FileStorage.Put, FileStorage.persist, hp]

/-- The map in memory and the data file after `DeleteSecret`, whatever its
outcome. -/
theorem DeleteSecret_data (e : Env) (v : Vault) (token path : String) :
    ((v.DeleteSecret e token path).1.storage.data = v.storage.data ∨
      (v.DeleteSecret e token path).1.storage.data =
        v.storage.data.delete (Vault.secretKey path)) ∧
    ((v.DeleteSecret e token path).1.storage.file = v.storage.file ∨
      (v.DeleteSecret e token path).1.storage.file =
        some (v.DeleteSecret e token path).1.storage.data ∨
      (v.DeleteSecret e token path).1.storage.file = none) ∧
    ((v.DeleteSecret e token path).2 = none →
      (v.DeleteSecret e token path).1.storage.file =
        some (v.DeleteSecret e token path).1.storage.data) := by
  unfold Vault.DeleteSecret
  cases hs : v.sealed with
  | true => simp
  | false =>
    cases hv : v.tokenStore.ValidateToken token e.now with
    | some err => simp
    | none =>
      unfold FileStorage.Delete
      cases hg : v.storage.data.get (Vault.secretKey path) with
      | none => simp
      | some blob =>
        cases hp : e.persist 0 with
        | none => simp [FileStorage.persist, hp]
        | some em =>
          obtain ⟨err, m⟩ := em
          cases m <;> simp [FileStorage.persist, hp]

theorem WriteSecret_get_other (D : Deps) (e : Env) (v : Vault) (token path : String)
    (data : GoMap JSONValue) (key : String) (hne : key ≠ Vault.secretKey path) :
    (v.WriteSecret D e token path data).1.storage.data.get key = v.storage.data.get key := by
  rcases (WriteSecret_data D e v token path data).1 with h | ⟨c, h⟩
  · rw [h]
  · rw [h, GoMap.get_set_of_ne _ _ _ _ hne]

theorem DeleteSecret_get_other (e : Env) (v : Vault) (token path : String)
    (key : String) (hne : key ≠ Vault.secretKey path) :
    (v.DeleteSecret e token path).1.storage.data.get key = v.storage.data.get key := by
  rcases (DeleteSecret_data e v token path).1 with h | h
  · rw [h]
  · rw [h, GoMap.get_delete_of_ne _ _ _ hne]

/-- C17: for every path and prefix, the storage key of a secret operation
starts with `secret/` and is neither `core/unseal-key` nor
`core/root-token`; `WriteSecret` and `DeleteSecret`, whatever their
outcome, leave the entry under every other key of the storage as it was, so
the two reserved entries are unchanged; the result of `ReadSecret` depends
on the storage only through the entry under the key of its path; and every
path `ListSecrets` returns is that of an entry under `secret/`. The data
file is rewritten as a whole: after a call that returns no error it holds
the map in memory, and whenever it still holds a map after a call it has
under every other key the entry it had before (given that it agreed with
the memory on that key); a write that stops after truncation leaves a file
that holds no map at all. -/
theorem secret_operations_spare_reserved_keys (D : Deps) (e : Env) (v : Vault)
    (token path pfx : String) (data : GoMap JSONValue) :
    "secret/".data <+: (Vault.secretKey path).data ∧
    "secret/".data <+: (Vault.secretKey pfx).data ∧
    Vault.secretKey path ≠ "core/unseal-key" ∧ Vault.secretKey path ≠ "core/root-token" ∧
    (∀ key, key ≠ Vault.secretKey path →
      (v.WriteSecret D e token path data).1.storage.Get key = v.storage.Get key ∧
      (v.DeleteSecret e token path).1.storage.Get key = v.storage.Get key ∧
      (∀ m m', v.storage.file = some m → m.get key = v.storage.data.get key →
        ((v.WriteSecret D e token path data).1.storage.file = some m' →
          m'.get key = m.get key) ∧
        ((v.DeleteSecret e token path).1.storage.file = some m' →
          m'.get key = m.get key))) ∧
    ((v.WriteSecret D e token path data).2 = none →
      (v.WriteSecret D e token path data).1.storage.file =
        some (v.WriteSecret D e token path data).1.storage.data) ∧
    ((v.DeleteSecret e token path).2 = none →
      (v.DeleteSecret e token path).1.storage.file =
        some (v.DeleteSecret e token path).1.storage.data) ∧
    (v.WriteSecret D e token path data).1.storage.Get "core/unseal-key" =
      v.storage.Get "core/unseal-key" ∧
    (v.WriteSecret D e token path data).1.storage.Get "core/root-token" =
      v.storage.Get "core/root-token" ∧
    (v.DeleteSecret e token path).1.storage.Get "core/unseal-key" =
      v.storage.Get "core/unseal-key" ∧
    (v.DeleteSecret e token path).1.storage.Get "core/root-token" =
      v.storage.Get "core/root-token" ∧
    (∀ st : FileStorage, st.Get (Vault.secretKey path) = v.storage.Get (Vault.secretKey path) →
      (({ v with storage := st } : Vault).ReadSecret D e token path).2 =
        (v.ReadSecret D e token path).2) ∧
    (∀ l, (v.ListSecrets e token pfx).2 = .ok l → ∀ p ∈ l,
      ∃ blob, v.storage.Get (Vault.secretKey p) = .ok blob) := by
  have hget : ∀ key, key ≠ Vault.secretKey path →
      (v.WriteSecret D e token path data).1.storage.Get key = v.storage.Get key ∧
      (v.DeleteSecret e token path).1.storage.Get key = v.storage.Get key := by
    intro key hne
    simp only [FileStorage.Get, WriteSecret_get_other D e v token path data key hne,
      DeleteSecret_get_other e v token path key hne, and_self]
  refine ⟨⟨path.data, rfl⟩, ⟨pfx.data, rfl⟩, secretKey_ne_unsealKey path,
    secretKey_ne_rootToken path, ?_,
    (WriteSecret_data D e v token path data).2.2,
    (DeleteSecret_data e v token path).2.2,
    (hget _ (secretKey_ne_unsealKey path).symm).1,
    (hget _ (secretKey_ne_rootToken path).symm).1,
    (hget _ (secretKey_ne_unsealKey path).symm).2,
    (hget _ (secretKey_ne_rootToken path).symm).2, ?_, ?_⟩
  · intro key hne
    refine ⟨(hget key hne).1, (hget key hne).2, ?_⟩
    intro m m' hfile hagree
    constructor
    · intro hafter
      rcases (WriteSecret_data D e v token path data).2.1 with h | h | h
      · rw [h, hfile] at hafter
        cases hafter
        rfl
      · rw [h] at hafter
        cases hafter
        rw [WriteSecret_get_other D e v token path data key hne, hagree]
      · rw [h] at hafter
        cases hafter
    · intro hafter
      rcases (DeleteSecret_data e v token path).2.1 with h | h | h
      · rw [h, hfile] at hafter
        cases hafter
        rfl
      · rw [h] at hafter
        cases hafter
        rw [DeleteSecret_get_other e v token path key hne, hagree]
      · rw [h] at hafter
        cases hafter
  · intro st hst
    simp only [Vault.ReadSecret, Vault.keyBytes, hst]
    repeat' first | split | dsimp only
  · intro l hl p hp
    have hu : v.sealed = false := by
      cases hs : v.sealed with
      | false => rfl
      | true => simp [Vault.ListSecrets, hs] at hl
    have hvalid : v.tokenStore.ValidateToken token e.now = none := by
      cases hv : v.tokenStore.ValidateToken token e.now with
      | none => rfl
      | some err => simp [Vault.ListSecrets, hu, hv] at hl
    obtain ⟨l', hl', hmem⟩ := ListSecrets_ok e v token pfx hu hvalid
    rw [hl'] at hl
    cases hl
    exact ((hmem p).mp hp).2.2

/-- C17 at the unsealed sample engine: a write whose data-file write stops
after truncation, at the path `../core/unseal-key`, returns the error and
leaves the verifier under `core/unseal-key` in the storage as it was. -/
theorem secret_operations_spare_reserved_keys_witness :
    (sampleVault2.WriteSecret sampleDeps sampleEnvWriteFails "root-1" "../core/unseal-key"
      [("x", .number 1)]).2 = some "write vault.db: no space left on device" ∧
    (sampleVault2.WriteSecret sampleDeps sampleEnvWriteFails "root-1" "../core/unseal-key"
      [("x", .number 1)]).1.storage.Get "core/unseal-key" = .ok sampleVerifier ∧
    (sampleVault2.WriteSecret sampleDeps sampleEnvWriteFails "root-1" "../core/unseal-key"
      [("x", .number 1)]).1.storage.Get "core/unseal-key" =
      sampleVault2.storage.Get "core/unseal-key" :=
  ⟨by decide, by decide,
   (secret_operations_spare_reserved_keys sampleDeps sampleEnvWriteFails sampleVault2
      "root-1" "../core/unseal-key" "" [("x", .number 1)]).2.2.2.2.2.2.2.1⟩

/-! ## Status codes of the handlers -/

theorem method_post_or_put (r : Request) (h : r.Method = "POST" ∨ r.Method = "PUT") :
    ¬ (r.Method ≠ "POST" ∧ r.Method ≠ "PUT") := by
  rcases h with h | h <;> simp [h]

/-- C15, as stated, fails: on the sealed sample engine the error `vault is
sealed` is answered with 500 by the write handler, 404 by the read handler
and 403 by the token handler; on the unsealed sample engine the error
`invalid token` is answered with 500 by the write handler and 404 by the
read handler, not 401. -/
theorem status_depends_on_endpoint :
    (sampleVault1.WriteSecret sampleDeps sampleEnv "root-1" "a/b" [("x", .number 1)]).2 =
      some errSealed ∧
    (writeSecretHandler sampleDeps sampleEnv sampleVault1 sampleWriteRequest
      (.ok [("x", .number 1)])).2.status = 500 ∧
    (sampleVault1.ReadSecret sampleDeps sampleEnv "root-1" "a/b").2 = .error errSealed ∧
    (readSecretHandler sampleDeps sampleEnv sampleVault1 sampleReadRequest).2.status = 404 ∧
    (sampleVault1.CreateToken sampleEnv "root-1" (24 * Hour)).2 = .error errSealed ∧
    (createTokenHandler sampleParseDuration sampleEnv sampleVault1 sampleCreateTokenRequest
      (.ok "")).2.status = 403 ∧
    (sampleVault2.WriteSecret sampleDeps sampleEnv "stranger" "a/b" [("x", .number 1)]).2 =
      some errInvalidToken ∧
    (writeSecretHandler sampleDeps sampleEnv sampleVault2
      { sampleWriteRequest with Token := "stranger" } (.ok [("x", .number 1)])).2.status = 500 ∧
    (sampleVault2.ReadSecret sampleDeps sampleEnv "stranger" "a/b").2 =
      .error errInvalidToken ∧
    (readSecretHandler sampleDeps sampleEnv sampleVault2
      { sampleReadRequest with Token := "stranger" }).2.status = 404 :=
  ⟨by decide, by decide, rfl, by decide, by decide, by decide, by decide, by decide, rfl,
   by decide⟩

/-- C15 (amended): every handler answers every error of the engine call it
makes with one status code, fixed by the endpoint alone, and the error text
as the body: 500 for init, write and list, 400 for unseal and seal, 404 for
read and delete, 403 for token creation and 401 for root-token
authentication. -/
theorem status_fixed_by_endpoint (D : Deps) (e : Env) (v : Vault) (r : Request) (err : Error) :
    (r.Method = "POST" ∨ r.Method = "PUT" → v.IsInitialized = false →
      (v.Initialize D e).2 = .error err →
      (initHandler D e v r).2 = writeError StatusInternalServerError err) ∧
    (∀ key, r.Method = "POST" ∨ r.Method = "PUT" → (v.Unseal D key).2 = some err →
      (unsealHandler D v r (.ok key)).2 = writeError StatusBadRequest err) ∧
    (r.Method = "POST" ∨ r.Method = "PUT" → v.Seal.2 = some err →
      (sealHandler v r).2 = writeError StatusBadRequest err) ∧
    (∀ data, r.Method = "POST" ∨ r.Method = "PUT" → getTokenFromHeader r ≠ "" →
      secretPath r ≠ "" →
      (v.WriteSecret D e (getTokenFromHeader r) (secretPath r) data).2 = some err →
      (writeSecretHandler D e v r (.ok data)).2 = writeError StatusInternalServerError err) ∧
    (r.Method = "GET" → getTokenFromHeader r ≠ "" → secretPath r ≠ "" →
      (v.ReadSecret D e (getTokenFromHeader r) (secretPath r)).2 = .error err →
      (readSecretHandler D e v r).2 = writeError StatusNotFound err) ∧
    (r.Method = "DELETE" → getTokenFromHeader r ≠ "" → secretPath r ≠ "" →
      (v.DeleteSecret e (getTokenFromHeader r) (secretPath r)).2 = some err →
      (deleteSecretHandler e v r).2 = writeError StatusNotFound err) ∧
    (r.Method = "GET" → getTokenFromHeader r ≠ "" →
      (v.ListSecrets e (getTokenFromHeader r) r.QueryPfx).2 = .error err →
      (listSecretsHandler e v r).2 = writeError StatusInternalServerError err) ∧
    (∀ (ParseDuration : String → Except Error Int) (reqTTL : String) (ttl : Int),
      r.Method = "POST" → getTokenFromHeader r ≠ "" →
      (if reqTTL ≠ "" then ParseDuration reqTTL else .ok (24 * Hour)) = .ok ttl →
      (v.CreateToken e (getTokenFromHeader r) ttl).2 = .error err →
      (createTokenHandler ParseDuration e v r (.ok reqTTL)).2 =
        writeError StatusForbidden err) ∧
    (r.Method = "POST" → getTokenFromHeader r ≠ "" →
      (v.AuthenticateRootToken D e (getTokenFromHeader r)).2 = some err →
      (authenticateHandler D e v r).2 = writeError StatusUnauthorized err) := by
  refine ⟨?_, ?_, ?_, ?_, ?_, ?_, ?_, ?_, ?_⟩
  · intro hm hi herr
    unfold initHandler
    simp only [method_post_or_put r hm, hi, if_false, Bool.false_eq_true]
    rcases hres : v.Initialize D e with ⟨w, res⟩
    rw [hres] at herr
    cases herr
    rfl
  · intro key hm herr
    unfold unsealHandler
    simp only [method_post_or_put r hm, if_false]
    rcases hres : v.Unseal D key with ⟨w, res⟩
    rw [hres] at herr
    cases herr
    rfl
  · intro hm herr
    unfold sealHandler
    simp only [method_post_or_put r hm, if_false]
    rcases hres : v.Seal with ⟨w, res⟩
    rw [hres] at herr
    cases herr
    rfl
  · intro data hm ht hp herr
    unfold writeSecretHandler
    simp only [method_post_or_put r hm, ht, hp, if_false]
    rcases hres : v.WriteSecret D e (getTokenFromHeader r) (secretPath r) data with ⟨w, res⟩
    rw [hres] at herr
    cases herr
    rfl
  · intro hm ht hp herr
    unfold readSecretHandler
    simp only [hm, ht, hp, if_false, ne_eq, not_true_eq_false]
    rcases hres : v.ReadSecret D e (getTokenFromHeader r) (secretPath r) with ⟨w, res⟩
    rw [hres] at herr
    cases herr
    rfl
  · intro hm ht hp herr
    unfold deleteSecretHandler
    simp only [hm, ht, hp, if_false, ne_eq, not_true_eq_false]
    rcases hres : v.DeleteSecret e (getTokenFromHeader r) (secretPath r) with ⟨w, res⟩
    rw [hres] at herr
    cases herr
    rfl
  · intro hm ht herr
    unfold listSecretsHandler
    simp only [hm, ht, if_false, ne_eq, not_true_eq_false]
    rcases hres : v.ListSecrets e (getTokenFromHeader r) r.QueryPfx with ⟨w, res⟩
    rw [hres] at herr
    cases herr
    rfl
  · intro ParseDuration reqTTL ttl hm ht httl herr
    unfold createTokenHandler
    simp only [hm, ht, httl, if_false, ne_eq, not_true_eq_false]
    rcases hres : v.CreateToken e (getTokenFromHeader r) ttl with ⟨w, res⟩
    rw [hres] at herr
    cases herr
    rfl
  · intro hm ht herr
    unfold authenticateHandler
    simp only [hm, ht, if_false, ne_eq, not_true_eq_false]
    rcases hres : v.AuthenticateRootToken D e (getTokenFromHeader r) with ⟨w, res⟩
    rw [hres] at herr
    cases herr
    rfl

/-- C15 (amended) at the sealed sample engine: the write handler answers
`vault is sealed` with 500. -/
theorem status_fixed_by_endpoint_witness :
    (sampleVault1.WriteSecret sampleDeps sampleEnv "root-1" "a/b" [("x", .number 1)]).2 =
      some errSealed ∧
    (writeSecretHandler sampleDeps sampleEnv sampleVault1 sampleWriteRequest
      (.ok [("x", .number 1)])).2 = writeError StatusInternalServerError errSealed :=
  ⟨by decide,
   (status_fixed_by_endpoint sampleDeps sampleEnv sampleVault1 sampleWriteRequest
      errSealed).2.2.2.1 [("x", .number 1)] (Or.inl rfl) (by decide) (by decide) (by decide)⟩

end VauClone
